import Mathlib

/-!
Verification development for the `docfactory` repository
(`src/docfactory_core.py`).

The Python core is shallowly embedded: Python values that flow through the
code are modelled by the inductive type `PyVal`; HTTP interactions of the
`KnowledgeBaseClient` are modelled by an abstract stateful server
(`Client`), and each engine method becomes a state-passing function that
threads the server state, a poll clock and the trace of issued requests.
Exceptions are modelled by `Except Failure`: `KnowledgeBaseError` by
`Failure.kb`, `ValueError` by `Failure.val`, and unhandled Python runtime
errors (`AttributeError`, `TypeError`, ...) by `Failure.crash`.
-/

/-- Model of a Python value as it flows through `docfactory_core.py`
(JSON-shaped data plus `None`).  Python dicts are modelled as association
lists with unique string keys preserving insertion order; float literals
keep their lexeme (no float arithmetic occurs in the embedded code). -/
inductive PyVal : Type where
  | none : PyVal
  | bool : Bool → PyVal
  | int : Int → PyVal
  | flt : String → PyVal
  | str : String → PyVal
  | list : List PyVal → PyVal
  | dict : List (String × PyVal) → PyVal

/-- Association-list lookup, first binding wins (Python dict keys are
unique, so this is `d[k]` / `d.get(k)`). -/
def alookup (kvs : List (String × PyVal)) (k : String) : Option PyVal :=
  match kvs with
  | [] => Option.none
  | (k', v) :: rest => if k' = k then Option.some v else alookup rest k

/-- Python `d[k] = v` on the association-list model: overwrite in place if
the key exists, else append (insertion order preserved). -/
def aset (kvs : List (String × PyVal)) (k : String) (v : PyVal) :
    List (String × PyVal) :=
  match kvs with
  | [] => [(k, v)]
  | (k', v') :: rest =>
      if k' = k then (k, v) :: rest else (k', v') :: aset rest k v

/-- Python `dict.update`: apply `aset` for every pair of the update, in
order. -/
def adictUpdate (base upd : List (String × PyVal)) : List (String × PyVal) :=
  match upd with
  | [] => base
  | (k, v) :: rest => adictUpdate (aset base k v) rest

/-- Python truthiness of a modelled value (`bool(v)`). -/
def PyVal.truthy : PyVal → Bool
  | .none => false
  | .bool b => b
  | .int n => n ≠ 0
  | .flt lex => lex ≠ "0.0"
  | .str s => s ≠ ""
  | .list xs => !xs.isEmpty
  | .dict kvs => !kvs.isEmpty

/-- Python `repr` of a modelled value (strings single-quoted); used only
to build human-readable messages. -/
def pyRepr : PyVal → String
  | .none => "None"
  | .bool true => "True"
  | .bool false => "False"
  | .int n => toString n
  | .flt lex => lex
  | .str s => "'" ++ s ++ "'"
  | .list xs => "[" ++ String.intercalate ", " (xs.attach.map fun x => pyRepr x.1) ++ "]"
  | .dict kvs =>
      "\x7b" ++
        String.intercalate ", "
          (kvs.attach.map fun kv => "'" ++ kv.1.1 ++ "': " ++ pyRepr kv.1.2) ++
      "\x7d"
decreasing_by
  · have h := List.sizeOf_lt_of_mem x.2
    simp only [PyVal.list.sizeOf_spec]
    omega
  · obtain ⟨⟨k, v⟩, hm⟩ := kv
    have h := List.sizeOf_lt_of_mem hm
    simp only [Prod.mk.sizeOf_spec] at h
    simp only [PyVal.dict.sizeOf_spec]
    omega

/-- Python `str()` of a modelled value. -/
def pyStr : PyVal → String
  | .none => "None"
  | .bool true => "True"
  | .bool false => "False"
  | .int n => toString n
  | .flt lex => lex
  | .str s => s
  | .list xs => pyRepr (.list xs)
  | .dict kvs => pyRepr (.dict kvs)

/-- Errors raised by `KnowledgeBaseError.__init__`: message, optional HTTP
status code, and a payload dict (`payload or \x7b\x7d` defaults to empty). -/
structure KBError : Type where
  message : String
  status_code : Option Nat
  payload : List (String × PyVal)

/-- Failure modes of the embedded Python code: `kb` is a raised
`KnowledgeBaseError`, `val` a raised `ValueError`, and `crash` an
unhandled Python runtime error (`AttributeError`, `TypeError`,
`KeyError`, ...). -/
inductive Failure : Type where
  | kb : KBError → Failure
  | val : String → Failure
  | crash : String → Failure

/-- Python type name of a modelled value, for crash messages. -/
def pyTypeName : PyVal → String
  | .none => "NoneType"
  | .bool _ => "bool"
  | .int _ => "int"
  | .flt _ => "float"
  | .str _ => "str"
  | .list _ => "list"
  | .dict _ => "dict"

/-- JSON serialization with `json.dumps` default separators; used by the
client wrapper to render error payloads into messages. -/
def dumpJson : PyVal → String
  | .none => "null"
  | .bool true => "true"
  | .bool false => "false"
  | .int n => toString n
  | .flt lex => lex
  | .str s => "\"" ++ s ++ "\""
  | .list xs => "[" ++ String.intercalate ", " (xs.attach.map fun x => dumpJson x.1) ++ "]"
  | .dict kvs =>
      "\x7b" ++
        String.intercalate ", "
          (kvs.attach.map fun kv => "\"" ++ kv.1.1 ++ "\": " ++ dumpJson kv.1.2) ++
      "\x7d"
decreasing_by
  · have h := List.sizeOf_lt_of_mem x.2
    simp only [PyVal.list.sizeOf_spec]
    omega
  · obtain ⟨⟨k, v⟩, hm⟩ := kv
    have h := List.sizeOf_lt_of_mem hm
    simp only [Prod.mk.sizeOf_spec] at h
    simp only [PyVal.dict.sizeOf_spec]
    omega

/-- The whitespace characters removed by Python `str.strip()`. -/
def pyWsChar (c : Char) : Bool :=
  c = ' ' || c = '\t' || c = '\n' || c = '\r' ||
    c = Char.ofNat 11 || c = Char.ofNat 12

/-- Python `s.strip()` on the character-list representation. -/
def pyStrip (s : String) : String :=
  String.mk (((s.data.dropWhile pyWsChar).reverse.dropWhile pyWsChar).reverse)

/-- Python `s.lower()` (ASCII case mapping suffices for the embedded
comparisons). -/
def asciiLower (s : String) : String :=
  String.mk (s.data.map Char.toLower)

/-- Python `s[:n]` on the character-list representation. -/
def pyTake (s : String) (n : Nat) : String :=
  String.mk (s.data.take n)

/-- Substring test on character lists (Python `k in s` for strings). -/
def containsSub (l pat : List Char) : Bool :=
  match l with
  | [] => pat.isEmpty
  | _ :: rest => pat.isPrefixOf l || containsSub rest pat

/-- Python `value.get(key)` (default `None`): crashes with
`AttributeError` when the receiver is not a dict. -/
def pyGet (v : PyVal) (k : String) : Except Failure PyVal :=
  match v with
  | .dict kvs => .ok ((alookup kvs k).getD .none)
  | _ =>
      .error (.crash
        ("'" ++ pyTypeName v ++ "' object has no attribute 'get': " ++ k))

/-- Python `value.get(key, default)`: crashes when the receiver is not a
dict. -/
def pyGetD (v : PyVal) (k : String) (d : PyVal) : Except Failure PyVal :=
  match v with
  | .dict kvs => .ok ((alookup kvs k).getD d)
  | _ =>
      .error (.crash
        ("'" ++ pyTypeName v ++ "' object has no attribute 'get': " ++ k))

/-- Python `value == s` for a string literal `s` on the right: strings
compare by content, every other type compares unequal. -/
def pyEqStr (v : PyVal) (s : String) : Bool :=
  match v with
  | .str t => t = s
  | _ => false

/-- Python `k in v` for a string `k`: key membership for dicts, element
membership for lists, substring test for strings, `TypeError` otherwise. -/
def pyContains (v : PyVal) (k : String) : Except Failure Bool :=
  match v with
  | .dict kvs => .ok (kvs.any (fun kv => kv.1 = k))
  | .list xs => .ok (xs.any (fun x => pyEqStr x k))
  | .str s => .ok (if k = "" then true else containsSub s.data k.data)
  | _ =>
      .error (.crash
        ("argument of type '" ++ pyTypeName v ++ "' is not iterable"))

/-- Python `v[k]` for a string key `k`: `KeyError` when absent,
`TypeError` when the receiver is not a dict. -/
def pyIndex (v : PyVal) (k : String) : Except Failure PyVal :=
  match v with
  | .dict kvs =>
      match alookup kvs k with
      | Option.some x => .ok x
      | Option.none => .error (.crash ("KeyError: '" ++ k ++ "'"))
  | .list _ =>
      .error (.crash "list indices must be integers or slices, not str")
  | _ =>
      .error (.crash ("'" ++ pyTypeName v ++ "' object is not subscriptable"))

/-- Python `for x in v`: lists yield their elements, dicts their keys,
strings their characters; other types raise `TypeError`. -/
def pyIter (v : PyVal) : Except Failure (List PyVal) :=
  match v with
  | .list xs => .ok xs
  | .dict kvs => .ok (kvs.map (fun kv => .str kv.1))
  | .str s => .ok (s.data.map (fun c => .str (String.singleton c)))
  | _ =>
      .error (.crash ("'" ++ pyTypeName v ++ "' object is not iterable"))

/-- Python `v.lower()`: crashes when the receiver is not a string. -/
def pyLower (v : PyVal) : Except Failure String :=
  match v with
  | .str s => .ok (asciiLower s)
  | _ =>
      .error (.crash
        ("'" ++ pyTypeName v ++ "' object has no attribute 'lower'"))

/-- Python `repr` of an optional string (how `f"...{x!r}"` renders
`Optional[str]` values in the polling messages). -/
def pyReprOptStr : Option String → String
  | Option.some s => "'" ++ s ++ "'"
  | Option.none => "None"


/-! ### A model of `json.loads`

`RenderCore.coerce_json` delegates string decoding to the standard
library's `json.loads`.  The parser below implements the JSON grammar the
same way (strict literals, leading-zero rule for numbers, string escapes,
objects with later-key-wins semantics, `NaN`/`Infinity` constants, no
trailing data).  Numbers with a fraction or exponent become `PyVal.flt`
carrying their lexeme; integers become `PyVal.int`. -/

/-- JSON whitespace accepted between tokens. -/
def jsonWs (c : Char) : Bool :=
  c = ' ' || c = '\t' || c = '\n' || c = '\r'

/-- Skip JSON whitespace. -/
def skipJsonWs (cs : List Char) : List Char :=
  cs.dropWhile jsonWs

/-- Hexadecimal digit value for `\uXXXX` escapes. -/
def hexDigitVal (c : Char) : Option Nat :=
  if '0' ≤ c ∧ c ≤ '9' then Option.some (c.toNat - '0'.toNat)
  else if 'a' ≤ c ∧ c ≤ 'f' then Option.some (c.toNat - 'a'.toNat + 10)
  else if 'A' ≤ c ∧ c ≤ 'F' then Option.some (c.toNat - 'A'.toNat + 10)
  else Option.none

/-- Parse the body of a JSON string literal (opening quote consumed),
returning the decoded characters and the rest of the input. -/
def parseStrChars : List Char → Option (List Char × List Char)
  | [] => Option.none
  | '"' :: rest => Option.some ([], rest)
  | '\\' :: 'u' :: h1 :: h2 :: h3 :: h4 :: rest =>
      match hexDigitVal h1, hexDigitVal h2, hexDigitVal h3, hexDigitVal h4 with
      | Option.some a, Option.some b, Option.some c, Option.some d =>
          (parseStrChars rest).map
            (fun r => (Char.ofNat (((a * 16 + b) * 16 + c) * 16 + d) :: r.1, r.2))
      | _, _, _, _ => Option.none
  | '\\' :: e :: rest =>
      let esc : Option Char :=
        if e = '"' then Option.some '"'
        else if e = '\\' then Option.some '\\'
        else if e = '/' then Option.some '/'
        else if e = 'b' then Option.some (Char.ofNat 8)
        else if e = 'f' then Option.some (Char.ofNat 12)
        else if e = 'n' then Option.some '\n'
        else if e = 'r' then Option.some '\r'
        else if e = 't' then Option.some '\t'
        else Option.none
      match esc with
      | Option.some c => (parseStrChars rest).map (fun r => (c :: r.1, r.2))
      | Option.none => Option.none
  | c :: rest =>
      if c.toNat < 32 then Option.none
      else (parseStrChars rest).map (fun r => (c :: r.1, r.2))

/-- Decimal digit test. -/
def isDigitChar (c : Char) : Bool := '0' ≤ c && c ≤ '9'

/-- Numeric value of a digit run. -/
def digitsToNat (ds : List Char) : Nat :=
  ds.foldl (fun acc c => acc * 10 + (c.toNat - '0'.toNat)) 0

/-- Parse a JSON number at the head of the input: optional minus sign,
integer part without leading zeros, optional fraction and exponent.  A
plain integer yields `PyVal.int`; a fraction or exponent yields
`PyVal.flt` with the consumed lexeme. -/
def parseNumber (cs : List Char) : Option (PyVal × List Char) :=
  let (sign, cs1) :=
    match cs with
    | '-' :: rest => (true, rest)
    | _ => (false, cs)
  let intDigits := cs1.takeWhile isDigitChar
  let cs2 := cs1.dropWhile isDigitChar
  if intDigits.isEmpty then Option.none
  else if intDigits.length > 1 ∧ intDigits.head? = Option.some '0' then
    Option.none
  else
    let (fracDigits, cs3) :=
      match cs2 with
      | '.' :: rest =>
          let fd := rest.takeWhile isDigitChar
          if fd.isEmpty then ([], cs2) else (('.' :: fd), rest.dropWhile isDigitChar)
      | _ => ([], cs2)
    if cs3 ≠ cs2 ∧ fracDigits.isEmpty then Option.none
    else
      let (expDigits, cs4) :=
        match cs3 with
        | 'e' :: '+' :: rest =>
            let ed := rest.takeWhile isDigitChar
            if ed.isEmpty then ([], cs3)
            else ('e' :: '+' :: ed, rest.dropWhile isDigitChar)
        | 'e' :: '-' :: rest =>
            let ed := rest.takeWhile isDigitChar
            if ed.isEmpty then ([], cs3)
            else ('e' :: '-' :: ed, rest.dropWhile isDigitChar)
        | 'e' :: rest =>
            let ed := rest.takeWhile isDigitChar
            if ed.isEmpty then ([], cs3)
            else ('e' :: ed, rest.dropWhile isDigitChar)
        | 'E' :: rest =>
            let ed := rest.takeWhile isDigitChar
            if ed.isEmpty then ([], cs3)
            else ('E' :: ed, rest.dropWhile isDigitChar)
        | _ => ([], cs3)
      let signChars : List Char := if sign then ['-'] else []
      if fracDigits.isEmpty ∧ expDigits.isEmpty then
        let n : Int := Int.ofNat (digitsToNat intDigits)
        Option.some (.int (if sign then -n else n), cs2)
      else
        Option.some
          (.flt (String.mk (signChars ++ intDigits ++ fracDigits ++ expDigits)),
            cs4)

mutual

/-- Parse a JSON value at the head of the input (fuel-indexed; the fuel
used by `pyJsonLoads` always suffices since each step consumes input). -/
def parseVal : Nat → List Char → Option (PyVal × List Char)
  | 0, _ => Option.none
  | fuel + 1, cs =>
      match skipJsonWs cs with
      | 'n' :: 'u' :: 'l' :: 'l' :: rest => Option.some (.none, rest)
      | 't' :: 'r' :: 'u' :: 'e' :: rest => Option.some (.bool true, rest)
      | 'f' :: 'a' :: 'l' :: 's' :: 'e' :: rest => Option.some (.bool false, rest)
      | 'N' :: 'a' :: 'N' :: rest => Option.some (.flt "nan", rest)
      | 'I' :: 'n' :: 'f' :: 'i' :: 'n' :: 'i' :: 't' :: 'y' :: rest =>
          Option.some (.flt "inf", rest)
      | '-' :: 'I' :: 'n' :: 'f' :: 'i' :: 'n' :: 'i' :: 't' :: 'y' :: rest =>
          Option.some (.flt "-inf", rest)
      | '"' :: rest =>
          (parseStrChars rest).map (fun r => (.str (String.mk r.1), r.2))
      | '[' :: rest =>
          match skipJsonWs rest with
          | ']' :: rest' => Option.some (.list [], rest')
          | rest' =>
              match parseVal fuel rest' with
              | Option.some (v, rest'') =>
                  (parseArrayRest fuel rest'').map
                    (fun r => (.list (v :: r.1), r.2))
              | Option.none => Option.none
      | '\x7b' :: rest =>
          match skipJsonWs rest with
          | '\x7d' :: rest' => Option.some (.dict [], rest')
          | rest' =>
              match parseObjEntry fuel rest' with
              | Option.some (k, v, rest'') =>
                  (parseObjRest fuel rest'').map
                    (fun r => (.dict (adictUpdate [] ((k, v) :: r.1)), r.2))
              | Option.none => Option.none
      | cs' => parseNumber cs'

/-- Parse the remaining elements of a JSON array after the first value:
either `]` closes the array, or `,` introduces the next element. -/
def parseArrayRest : Nat → List Char → Option (List PyVal × List Char)
  | 0, _ => Option.none
  | fuel + 1, cs =>
      match skipJsonWs cs with
      | ']' :: rest => Option.some ([], rest)
      | ',' :: rest =>
          match parseVal fuel rest with
          | Option.some (v, rest') =>
              (parseArrayRest fuel rest').map (fun r => (v :: r.1, r.2))
          | Option.none => Option.none
      | _ => Option.none

/-- Parse a single `"key": value` entry of a JSON object. -/
def parseObjEntry : Nat → List Char → Option (String × PyVal × List Char)
  | 0, _ => Option.none
  | fuel + 1, cs =>
      match skipJsonWs cs with
      | '"' :: rest =>
          match parseStrChars rest with
          | Option.some (kcs, rest') =>
              match skipJsonWs rest' with
              | ':' :: rest'' =>
                  (parseVal fuel rest'').map
                    (fun r => (String.mk kcs, r.1, r.2))
              | _ => Option.none
          | Option.none => Option.none
      | _ => Option.none

/-- Parse the remaining entries of a JSON object after the first one. -/
def parseObjRest : Nat → List Char → Option (List (String × PyVal) × List Char)
  | 0, _ => Option.none
  | fuel + 1, cs =>
      match skipJsonWs cs with
      | '\x7d' :: rest => Option.some ([], rest)
      | ',' :: rest =>
          match parseObjEntry fuel rest with
          | Option.some (k, v, rest') =>
              (parseObjRest fuel rest').map (fun r => ((k, v) :: r.1, r.2))
          | Option.none => Option.none
      | _ => Option.none

end

/-- A model of Python `json.loads`: parse one JSON value and require only
whitespace to remain; errors are reported as a decode-error string (the
embedding does not reproduce the exact wording of `json.JSONDecodeError`,
only that a decode error with a description is raised). -/
def pyJsonLoads (s : String) : Except String PyVal :=
  match parseVal (s.length + 1) s.data with
  | Option.some (v, rest) =>
      if (skipJsonWs rest).isEmpty then .ok v
      else .error "Extra data"
  | Option.none => .error "Expecting value"

/-! ### `RenderCore.coerce_json` and the module-level helpers -/

/-- Embedding of `RenderCore.coerce_json` (src/docfactory_core.py lines
89-116): normalize an input that may be `None`, a structured object, or a
JSON-encoded string. -/
def coerce_json (value : PyVal) (field_name : String) (required : Bool)
    (default : PyVal) : Except Failure PyVal :=
  match value with
  | .none =>
      if required then .error (.val (field_name ++ " is required."))
      else .ok default
  | .dict kvs => .ok (.dict kvs)
  | .list xs => .ok (.list xs)
  | .str s =>
      let stripped := pyStrip s
      if stripped = "" then
        if required then .error (.val (field_name ++ " cannot be empty."))
        else .ok default
      else
        match pyJsonLoads stripped with
        | .ok v => .ok v
        | .error exc =>
            .error (.val (field_name ++ " is not valid JSON: " ++ exc))
  | _ =>
      .error (.val (field_name ++ " must be a JSON string or structured object."))

/-- Embedding of `parse_metadata` (lines 205-218): coerce the
`metadata_json` parameter and require a JSON object; string keys are
already canonical in the model, so the `str(key)` sanitization is the
identity. -/
def parse_metadata (metadata_value : PyVal) :
    Except Failure (Option (List (String × PyVal))) :=
  match coerce_json metadata_value "metadata_json" false .none with
  | .error e => .error e
  | .ok parsed =>
      match parsed with
      | .none => .ok Option.none
      | .dict kvs => .ok (Option.some (kvs.map (fun kv => (kv.1, kv.2))))
      | _ => .error (.val "metadata_json must be a JSON object.")

/-- Embedding of `assemble_metadata` (lines 221-225): start from the
`generated_by` marker and apply `base.update(metadata)` when the incoming
mapping is truthy; `base or None` never yields `None` because `base`
always holds the marker. -/
def assemble_metadata (metadata : Option (List (String × PyVal))) :
    Option (List (String × PyVal)) :=
  let base : List (String × PyVal) := [("generated_by", .str "DocFactory")]
  let base' :=
    match metadata with
    | Option.some kvs => if kvs.isEmpty then base else adictUpdate base kvs
    | Option.none => base
  if base'.isEmpty then Option.none else Option.some base'

/-- Embedding of `normalize_upsert_mode` (lines 197-202). -/
def normalize_upsert_mode (mode : PyVal) : String :=
  match mode with
  | .str s =>
      let normalized := asciiLower (pyStrip s)
      if normalized = "create_or_update" ∨ normalized = "create_only" ∨
          normalized = "update_only" then normalized
      else "create_or_update"
  | _ => "create_or_update"

/-- Character class `[A-Za-z0-9_-]` kept by the slug regex. -/
def slugAllowedChar (c : Char) : Bool :=
  ('A' ≤ c && c ≤ 'Z') || ('a' ≤ c && c ≤ 'z') || ('0' ≤ c && c ≤ '9') ||
    c = '_' || c = '-'

/-- Embedding of `re.sub(r"[^A-Za-z0-9_-]+", "_", s)`: each maximal run of
characters outside the class collapses to a single underscore.  The flag
records whether the previous character was part of such a run. -/
def subRunsAux (prevBad : Bool) : List Char → List Char
  | [] => []
  | c :: cs =>
      if slugAllowedChar c then c :: subRunsAux false cs
      else if prevBad then subRunsAux true cs
      else '_' :: subRunsAux true cs

/-- The slug regex substitution on strings. -/
def reSubSlug (s : String) : String :=
  String.mk (subRunsAux false s.data)

/-- Python `s.strip("_")`: drop underscores from both ends. -/
def stripUnderscores (s : String) : String :=
  String.mk
    (((s.data.dropWhile (fun c => c = '_')).reverse.dropWhile
      (fun c => c = '_')).reverse)

/-- The full slug pipeline of `generate_document_name`:
`re.sub(...).strip("_") or "document"`. -/
def slugOf (s : String) : String :=
  let t := stripUnderscores (reSubSlug s)
  if t = "" then "document" else t

/-- Slug source selection of `generate_document_name` (lines 229-235): the
first key among `name`, `title`, `document_name`, `customer_code` whose
value is a non-blank string wins (stripped); the fallback is `document`. -/
def firstNameSource (data_context : PyVal) : String :=
  match data_context with
  | .dict kvs => pickNameKey kvs ["name", "title", "document_name", "customer_code"]
  | _ => "document"
where
  /-- Iterate the candidate keys in order. -/
  pickNameKey (kvs : List (String × PyVal)) : List String → String
    | [] => "document"
    | k :: rest =>
        match alookup kvs k with
        | Option.some (.str s) =>
            if pyStrip s = "" then pickNameKey kvs rest else pyStrip s
        | _ => pickNameKey kvs rest

/-- Embedding of `generate_document_name` (lines 228-238).  The calls to
`datetime.utcnow().strftime(...)` and `uuid4().hex` are nondeterministic
inputs of the code and become the explicit parameters `timestamp` and
`uuidHex` (the code keeps only the first six hex characters). -/
def generate_document_name (data_context : PyVal)
    (timestamp uuidHex : String) : String :=
  "docfactory_" ++ slugOf (firstNameSource data_context) ++ "_" ++
    timestamp ++ "_" ++ pyTake uuidHex 6

/-- Embedding of `normalize_document_response` (lines 241-249): probe
`data`, then `document`, then mirror `document_id` into `id`. -/
def normalize_document_response (response : PyVal) :
    Except Failure PyVal :=
  let candidate := if response.truthy then response else .dict []
  match pyContains candidate "data" with
  | .error e => .error e
  | .ok hasData =>
      match (if hasData then pyIndex candidate "data" else .ok .none :
          Except Failure PyVal) with
      | .error e => .error e
      | .ok dataVal =>
          let candidate1 :=
            match hasData, dataVal with
            | true, .dict kvs => PyVal.dict kvs
            | _, _ => candidate
          match pyContains candidate1 "document" with
          | .error e => .error e
          | .ok hasDoc =>
              match (if hasDoc then pyIndex candidate1 "document" else .ok .none :
                  Except Failure PyVal) with
              | .error e => .error e
              | .ok docVal =>
                  let candidate2 :=
                    match hasDoc, docVal with
                    | true, .dict kvs => PyVal.dict kvs
                    | _, _ => candidate1
                  match pyContains candidate2 "document_id" with
                  | .error e => .error e
                  | .ok hasDid =>
                      match pyContains candidate2 "id" with
                      | .error e => .error e
                      | .ok hasId =>
                          if hasDid ∧ ¬ hasId then
                            match candidate2 with
                            | .dict kvs =>
                                match pyIndex candidate2 "document_id" with
                                | .error e => .error e
                                | .ok did => .ok (.dict (aset kvs "id" did))
                            | _ =>
                                .error (.crash
                                  ("'" ++ pyTypeName candidate2 ++
                                    "' object does not support item assignment"))
                          else .ok candidate2

/-- Embedding of `KnowledgeBaseDocumentCore._safe_str` (lines 589-594). -/
def safe_str (value : PyVal) : Option String :=
  match value with
  | .none => Option.none
  | v =>
      let text := pyStrip (pyStr v)
      if text = "" then Option.none else Option.some text

/-- Embedding of `KnowledgeBaseDocumentCore._normalize_text` (lines
583-587) and of the identical inline normalizations in the chunk engine. -/
def normalize_text (value : PyVal) : String :=
  match value with
  | .str s => s
  | v => pyStr v

/-! ### The remote client

`KnowledgeBaseClient.request` is modelled against an abstract stateful
server: `Client.serve` maps a request to a transport-level outcome and a
new server state.  The wrapper reproduces the error translation of
`request` (lines 40-80): transport failures and HTTP statuses >= 400
become `KnowledgeBaseError`s with the exact message formats of the code;
success bodies arrive already parsed as a `PyVal`. -/

/-- The requests `docfactory_core.py` can issue, in structured form. -/
inductive Req : Type where
  | getDocument (dataset_id document_id : String)
  | listDocuments (dataset_id : String) (page limit : Nat) (keyword : String)
  | createByText (dataset_id name text indexing_technique process_rule_mode : String)
  | updateByText (dataset_id document_id text : String) (name : Option String)
  | getMetadataFields (dataset_id : String)
  | createMetadataField (dataset_id field_type name : String)
  | applyDocumentMetadata (dataset_id document_id : String)
      (metadata_list : List (String × String × PyVal))
  | listSegments (dataset_id document_id : String)
  | deleteSegment (dataset_id document_id segment_id : String)
  | createSegments (dataset_id document_id content : String)
      (keywords : List String)

/-- HTTP method of each request, as issued by the code. -/
def Req.method : Req → String
  | .getDocument _ _ => "GET"
  | .listDocuments _ _ _ _ => "GET"
  | .createByText _ _ _ _ _ => "POST"
  | .updateByText _ _ _ _ => "POST"
  | .getMetadataFields _ => "GET"
  | .createMetadataField _ _ _ => "POST"
  | .applyDocumentMetadata _ _ _ => "POST"
  | .listSegments _ _ => "GET"
  | .deleteSegment _ _ _ => "DELETE"
  | .createSegments _ _ _ _ => "POST"

/-- URL path of each request, mirroring the f-strings of the code. -/
def Req.path : Req → String
  | .getDocument ds did => "/datasets/" ++ ds ++ "/documents/" ++ did
  | .listDocuments ds _ _ _ => "/datasets/" ++ ds ++ "/documents"
  | .createByText ds _ _ _ _ => "/datasets/" ++ ds ++ "/document/create-by-text"
  | .updateByText ds did _ _ =>
      "/datasets/" ++ ds ++ "/documents/" ++ did ++ "/update_by_text"
  | .getMetadataFields ds => "/datasets/" ++ ds ++ "/metadata"
  | .createMetadataField ds _ _ => "/datasets/" ++ ds ++ "/metadata"
  | .applyDocumentMetadata ds _ _ => "/datasets/" ++ ds ++ "/documents/metadata"
  | .listSegments ds did =>
      "/datasets/" ++ ds ++ "/documents/" ++ did ++ "/segments"
  | .deleteSegment ds did sid =>
      "/datasets/" ++ ds ++ "/documents/" ++ did ++ "/segments/" ++ sid
  | .createSegments ds did _ _ =>
      "/datasets/" ++ ds ++ "/documents/" ++ did ++ "/segments"

/-- Transport-level outcome of one request: a parsed success body, a
`requests.RequestException`, or an HTTP error status with an optional
JSON-parsed body (`Option.none` when the body is not JSON) and raw text. -/
inductive RemoteResult : Type where
  | ok (v : PyVal)
  | transport (excMsg : String)
  | http (status : Nat) (payload : Option PyVal) (text : String)

/-- The abstract remote endpoint: a base URL plus a stateful handler.
Models `KnowledgeBaseClient` (the api key only feeds headers and is
behaviourally irrelevant). -/
structure Client (σ : Type) : Type where
  baseUrl : String
  serve : σ → Req → RemoteResult × σ

/-- State threaded through every engine method: the server state, the
poll clock (advanced only by `time.sleep`), and the trace of issued
requests. -/
structure EngSt (σ : Type) : Type where
  srv : σ
  clock : Nat
  trace : List Req

/-- Result of one embedded step: an exception or a value, plus the state
after the step (the state survives failures, so the trace of a failed run
remains observable). -/
def StepRes (σ α : Type) : Type := Except Failure α × EngSt σ

/-- Sequencing with Python exception semantics: a raised exception
short-circuits the rest of the block. -/
def stepBind {σ α β : Type} (x : StepRes σ α)
    (f : α → EngSt σ → StepRes σ β) : StepRes σ β :=
  match x with
  | (.ok a, st) => f a st
  | (.error e, st) => (.error e, st)

/-- Lift a pure `Except` computation into a step. -/
def liftPure {σ α : Type} (x : Except Failure α) (st : EngSt σ) :
    StepRes σ α := (x, st)

/-- Embedding of `KnowledgeBaseClient.request` (lines 40-80) against the
abstract server.  On success the parsed body is returned; transport
failures and statuses >= 400 raise `KnowledgeBaseError` with the message
formats of the code, the numeric status, and the payload when it is a
dict. -/
def request {σ : Type} (cl : Client σ) (r : Req) (st : EngSt σ) :
    StepRes σ PyVal :=
  let (res, srv') := cl.serve st.srv r
  let st' : EngSt σ := ⟨srv', st.clock, st.trace ++ [r]⟩
  match res with
  | .ok v => (.ok v, st')
  | .transport excMsg =>
      (.error (.kb
        ⟨"Request to " ++ cl.baseUrl ++ r.path ++ " failed: " ++ excMsg,
          Option.none, []⟩), st')
  | .http status payload text =>
      let detail :=
        match payload with
        | Option.some p => dumpJson p
        | Option.none => text
      let payloadDict :=
        match payload with
        | Option.some (.dict kvs) => kvs
        | _ => []
      (.error (.kb
        ⟨"Dify API error " ++ toString status ++ " for " ++ r.method ++ " " ++
            r.path ++ ": " ++ detail,
          Option.some status, payloadDict⟩), st')

/-! ### `KnowledgeBaseDocumentCore` -/

/-- The constructor state of `KnowledgeBaseDocumentCore`:
`(default_dataset_id or "").strip() or None`. -/
structure DocCore : Type where
  default_dataset_id : Option String

/-- Embedding of `KnowledgeBaseDocumentCore.__init__` (lines 273-280). -/
def mkDocCore (default_dataset_id : Option String) : DocCore :=
  let t := pyStrip (default_dataset_id.getD "")
  ⟨if t = "" then Option.none else Option.some t⟩

/-- Caller parameters of `save_text_document`; absent keys are `None`
exactly as `parameters.get(...)` yields them. -/
structure Params : Type where
  dataset_id : PyVal := .none
  document_id : PyVal := .none
  document_name : PyVal := .none
  upsert_mode : PyVal := .none
  metadata_json : PyVal := .none

/-- Embedding of `_resolve_dataset_id` (lines 323-327). -/
def resolve_dataset_id (core : DocCore) (params : Params) :
    Except Failure String :=
  let dataset_candidate :=
    match safe_str params.dataset_id with
    | Option.some s => Option.some s
    | Option.none => core.default_dataset_id
  match dataset_candidate with
  | Option.some s => .ok s
  | Option.none =>
      .error (.kb
        ⟨"dataset_id is required to save documents into the Knowledge Base.",
          Option.none, []⟩)

/-- Name-matching pass of `_find_document_by_name` (lines 550-563): parse
the listing response with the fixed probe order (`data.documents`, then a
bare `data` list, then a top-level `documents` key) and return the first
document whose `name`/`document_name` matches case-insensitively. -/
def findDocInListing (response : PyVal) (document_name : String) :
    Except Failure (Option PyVal) :=
  match pyGet response "data" with
  | .error e => .error e
  | .ok dataVal =>
      let documentsVal : Except Failure PyVal :=
        match dataVal with
        | .dict kvs =>
            if kvs.any (fun kv => kv.1 = "documents") then
              match pyIndex dataVal "documents" with
              | .error e => .error e
              | .ok docs => .ok (if docs.truthy then docs else .list [])
            else
              fallbackDocuments response
        | .list xs => .ok (.list xs)
        | _ => fallbackDocuments response
      match documentsVal with
      | .error e => .error e
      | .ok docsVal =>
          match pyIter docsVal with
          | .error e => .error e
          | .ok docs => matchLoop docs
where
  /-- The `elif "documents" in response` probe. -/
  fallbackDocuments (response : PyVal) : Except Failure PyVal :=
    match pyContains response "documents" with
    | .error e => .error e
    | .ok has =>
        if has then
          match pyIndex response "documents" with
          | .error e => .error e
          | .ok docs => .ok (if docs.truthy then docs else .list [])
        else .ok (.list [])
  /-- The `for document in documents` matching loop. -/
  matchLoop : List PyVal → Except Failure (Option PyVal)
    | [] => .ok Option.none
    | document :: rest =>
        match pyGet document "name" with
        | .error e => .error e
        | .ok nameVal =>
            match (if nameVal.truthy then .ok nameVal
                else pyGet document "document_name" : Except Failure PyVal) with
            | .error e => .error e
            | .ok name =>
                if name.truthy then
                  match pyLower name with
                  | .error e => .error e
                  | .ok lowered =>
                      if lowered = asciiLower document_name then
                        .ok (Option.some document)
                      else matchLoop rest
                else matchLoop rest

/-- Embedding of `_find_document_by_name` (lines 540-563): issue the
keyword listing (page 1, limit 200) and scan it. -/
def find_document_by_name {σ : Type} (cl : Client σ)
    (dataset_id document_name : String) (st : EngSt σ) :
    StepRes σ (Option PyVal) :=
  stepBind (request cl (.listDocuments dataset_id 1 200 document_name) st)
    (fun response st => liftPure (findDocInListing response document_name) st)

/-- Embedding of `_assert_document_exists` (lines 565-574); in the model
every parsed body is a `PyVal`, and the `isinstance(response, dict)` guard
is the dict test. -/
def assert_document_exists {σ : Type} (cl : Client σ)
    (dataset_id document_id : String) (st : EngSt σ) : StepRes σ PyVal :=
  stepBind (request cl (.getDocument dataset_id document_id) st)
    (fun response st =>
      match response with
      | .dict kvs => (.ok (.dict kvs), st)
      | _ =>
          (.error (.kb
            ⟨"Document " ++ document_id ++ " not found inside dataset " ++
                dataset_id ++ ".", Option.none, []⟩), st))

/-- Embedding of `_extract_document_id` (lines 576-581). -/
def extract_document_id (document : PyVal) : Except Failure String :=
  match pyGet document "id" with
  | .error e => .error e
  | .ok idVal =>
      match (if idVal.truthy then .ok idVal
          else pyGet document "document_id" : Except Failure PyVal) with
      | .error e => .error e
      | .ok doc_id =>
          if doc_id.truthy then .ok (pyStr doc_id)
          else
            .error (.kb
              ⟨"Unable to resolve document_id from Knowledge Base response.",
                Option.none, []⟩)

/-- Embedding of `_create_document_by_text` (lines 390-413): POST the
fixed high-quality/automatic payload, normalize the response, and require
an identifier. -/
def create_document_by_text {σ : Type} (cl : Client σ)
    (dataset_id document_name rendered_text : String) (st : EngSt σ) :
    StepRes σ PyVal :=
  stepBind
    (request cl
      (.createByText dataset_id document_name rendered_text "high_quality"
        "automatic") st)
    (fun response st =>
      stepBind (liftPure (normalize_document_response response) st)
        (fun document st =>
          stepBind (liftPure (pyContains document "id") st)
            (fun hasId st =>
              stepBind (liftPure (pyContains document "document_id") st)
                (fun hasDid st =>
                  if ¬ hasId ∧ ¬ hasDid then
                    (.error (.kb
                      ⟨"Document creation succeeded but no identifier was returned.",
                        Option.none, []⟩), st)
                  else (.ok document, st)))))

/-- Embedding of `_update_document_by_text` (lines 415-430): payload gains
`name` only when a document name is supplied. -/
def update_document_by_text {σ : Type} (cl : Client σ)
    (dataset_id document_id rendered_text : String)
    (document_name : Option String) (st : EngSt σ) : StepRes σ Unit :=
  stepBind
    (request cl (.updateByText dataset_id document_id rendered_text
      document_name) st)
    (fun _ st => (.ok (), st))

/-- The `_extract_items` compat helper inside `_apply_metadata` (lines
447-455): probe `doc_metadata`, then `data`, for a list. -/
def extract_items (payload : PyVal) : Option (List PyVal) :=
  match payload with
  | .dict kvs =>
      match alookup kvs "doc_metadata" with
      | Option.some (.list xs) => Option.some xs
      | _ =>
          match alookup kvs "data" with
          | Option.some (.list xs) => Option.some xs
          | _ => Option.none
  | _ => Option.none

/-- String-keyed lookup for the `name_to_id` mapping. -/
def slookup (m : List (String × String)) (k : String) : Option String :=
  match m with
  | [] => Option.none
  | (k', v) :: rest => if k' = k then Option.some v else slookup rest k

/-- Assignment on the `name_to_id` mapping (Python dict semantics). -/
def sset (m : List (String × String)) (k v : String) :
    List (String × String) :=
  match m with
  | [] => [(k, v)]
  | (k', v') :: rest =>
      if k' = k then (k, v) :: rest else (k', v') :: sset rest k v

/-- Collection of `name -> id` pairs from a metadata-field listing (lines
461-468 and 496-504): only dict items with a truthy stripped name and a
truthy id contribute. -/
def collectNameToId (items : List PyVal) (acc : List (String × String)) :
    List (String × String) :=
  match items with
  | [] => acc
  | item :: rest =>
      match item with
      | .dict kvs =>
          let nameRaw := (alookup kvs "name").getD .none
          let name := pyStrip (pyStr (if nameRaw.truthy then nameRaw else .str ""))
          let meta_id := (alookup kvs "id").getD .none
          if name ≠ "" ∧ meta_id.truthy then
            collectNameToId rest (sset acc name (pyStr meta_id))
          else collectNameToId rest acc
      | _ => collectNameToId rest acc

/-- The field-creation loop of `_apply_metadata` (lines 469-490): for
every metadata key missing from `name_to_id`, POST a new string field;
a `KnowledgeBaseError` with a 4xx status is tolerated and the key skipped,
no status or a 5xx status aborts. -/
def ensureFieldsLoop {σ : Type} (cl : Client σ) (dataset_id : String)
    (keys : List String) (name_to_id : List (String × String))
    (st : EngSt σ) : StepRes σ (List (String × String)) :=
  match keys with
  | [] => (.ok name_to_id, st)
  | key :: rest =>
      let name := pyStrip key
      if name = "" ∨ (slookup name_to_id name).isSome then
        ensureFieldsLoop cl dataset_id rest name_to_id st
      else
        match request cl (.createMetadataField dataset_id "string" name) st with
        | (.error (.kb exc), st') =>
            if exc.status_code = Option.none ∨
                (exc.status_code.getD 0) ≥ 500 then
              (.error (.kb exc), st')
            else ensureFieldsLoop cl dataset_id rest name_to_id st'
        | (.error e, st') => (.error e, st')
        | (.ok create_resp, st') =>
            let name_to_id' :=
              match create_resp with
              | .dict kvs =>
                  let new_id := (alookup kvs "id").getD .none
                  if new_id.truthy then sset name_to_id name (pyStr new_id)
                  else name_to_id
              | _ => name_to_id
            ensureFieldsLoop cl dataset_id rest name_to_id' st'

/-- The batched triple list of `_apply_metadata` (lines 506-520): keys
with a blank stripped name or no resolvable field id are dropped. -/
def buildMetadataList (metadata : List (String × PyVal))
    (name_to_id : List (String × String)) :
    List (String × String × PyVal) :=
  match metadata with
  | [] => []
  | (key, value) :: rest =>
      let name := pyStrip key
      if name = "" then buildMetadataList rest name_to_id
      else
        match slookup name_to_id name with
        | Option.none => buildMetadataList rest name_to_id
        | Option.some meta_id =>
            (meta_id, name, value) :: buildMetadataList rest name_to_id

/-- Embedding of `_apply_metadata` (lines 432-538).  Note that every
success path returns the incoming `metadata` mapping unchanged (lines 459,
523, 538); the triples actually submitted live only in the request. -/
def apply_metadata {σ : Type} (cl : Client σ)
    (dataset_id document_id : String)
    (metadata : Option (List (String × PyVal))) (st : EngSt σ) :
    StepRes σ (Option (List (String × PyVal))) :=
  match metadata with
  | Option.none => (.ok Option.none, st)
  | Option.some md =>
      if md.isEmpty then (.ok Option.none, st)
      else
        stepBind (request cl (.getMetadataFields dataset_id) st)
          (fun meta_def_response st =>
            match extract_items meta_def_response with
            | Option.none => (.ok (Option.some md), st)
            | Option.some items =>
                let name_to_id := collectNameToId items []
                stepBind
                  (ensureFieldsLoop cl dataset_id (md.map (fun kv => kv.1))
                    name_to_id st)
                  (fun name_to_id st =>
                    stepBind (request cl (.getMetadataFields dataset_id) st)
                      (fun meta_def_response2 st =>
                        let name_to_id2 :=
                          match extract_items meta_def_response2 with
                          | Option.some items2 =>
                              collectNameToId items2 name_to_id
                          | Option.none => name_to_id
                        let metadata_list := buildMetadataList md name_to_id2
                        if metadata_list.isEmpty then
                          (.ok (Option.some md), st)
                        else
                          stepBind
                            (request cl
                              (.applyDocumentMetadata dataset_id document_id
                                metadata_list) st)
                            (fun _ st => (.ok (Option.some md), st)))))

/-- Embedding of `_ensure_document_for_upsert` (lines 329-388): resolve
exactly one target document following the first-match-wins rules. -/
def ensure_document_for_upsert {σ : Type} (cl : Client σ)
    (dataset_id : String) (document_id document_name : Option String)
    (upsert_mode rendered_text : String) (data_context : PyVal)
    (timestamp uuidHex : String) (st : EngSt σ) : StepRes σ String :=
  match document_id with
  | Option.some did =>
      stepBind (assert_document_exists cl dataset_id did st)
        (fun _ st =>
          stepBind
            (update_document_by_text cl dataset_id did rendered_text
              document_name st)
            (fun _ st => (.ok did, st)))
  | Option.none =>
      match document_name with
      | Option.some nm =>
          stepBind (find_document_by_name cl dataset_id nm st)
            (fun existing st =>
              match existing with
              | Option.some doc =>
                  if upsert_mode = "create_only" then
                    (.error (.kb
                      ⟨"Document already exists but upsert_mode is create_only.",
                        Option.none, []⟩), st)
                  else
                    stepBind (liftPure (extract_document_id doc) st)
                      (fun target_id st =>
                        stepBind
                          (update_document_by_text cl dataset_id target_id
                            rendered_text (Option.some nm) st)
                          (fun _ st => (.ok target_id, st)))
              | Option.none =>
                  if upsert_mode = "update_only" then
                    (.error (.kb
                      ⟨"Document not found and upsert_mode is update_only.",
                        Option.none, []⟩), st)
                  else
                    stepBind
                      (create_document_by_text cl dataset_id nm rendered_text
                        st)
                      (fun created st =>
                        liftPure (extract_document_id created) st))
      | Option.none =>
          if upsert_mode = "update_only" then
            (.error (.kb
              ⟨"document_name or document_id is required when upsert_mode is update_only.",
                Option.none, []⟩), st)
          else
            let generated_name :=
              generate_document_name data_context timestamp uuidHex
            stepBind
              (create_document_by_text cl dataset_id generated_name
                rendered_text st)
              (fun created st => liftPure (extract_document_id created) st)

/-- The result object of `save_text_document` (lines 306-311). -/
structure SaveSummary : Type where
  saved_to_kb : Bool
  dataset_id : String
  document_id : String
  metadata_applied : Option (List (String × PyVal))

/-- Embedding of `save_text_document` (lines 282-321), the core of the
`saveToKnowledgeBase` tool.  `timestamp`/`uuidHex` inject the
nondeterministic inputs of `generate_document_name`. -/
def save_text_document {σ : Type} (cl : Client σ) (core : DocCore)
    (rendered_text : PyVal) (params : Params) (data_context : PyVal)
    (timestamp uuidHex : String) (st : EngSt σ) : StepRes σ SaveSummary :=
  stepBind (liftPure (resolve_dataset_id core params) st)
    (fun dataset_id st =>
      stepBind (liftPure (parse_metadata params.metadata_json) st)
        (fun metadata_input st =>
          let metadata_payload := assemble_metadata metadata_input
          let upsert_mode := normalize_upsert_mode params.upsert_mode
          let document_name := safe_str params.document_name
          let document_id := safe_str params.document_id
          let text := normalize_text rendered_text
          stepBind
            (ensure_document_for_upsert cl dataset_id document_id
              document_name upsert_mode text data_context timestamp uuidHex
              st)
            (fun resolved_id st =>
              let summary : SaveSummary :=
                ⟨true, dataset_id, resolved_id, Option.none⟩
              match metadata_payload with
              | Option.some kvs =>
                  if kvs.isEmpty then (.ok summary, st)
                  else
                    stepBind
                      (apply_metadata cl dataset_id resolved_id
                        (Option.some kvs) st)
                      (fun applied_metadata st =>
                        (.ok { summary with metadata_applied := applied_metadata },
                          st))
              | Option.none => (.ok summary, st))))

/-! ### `KnowledgeBaseChunkCore` -/

/-- Status extraction of `_wait_for_completed` (lines 621-625): Python
`or`-chain over `indexing_status`, `data.indexing_status`,
`document.indexing_status`. -/
def indexingStatusOf (document : PyVal) : Except Failure PyVal :=
  match pyGet document "indexing_status" with
  | .error e => .error e
  | .ok s1 =>
      if s1.truthy then .ok s1
      else
        match pyGetD document "data" (.dict []) with
        | .error e => .error e
        | .ok dataVal =>
            match pyGet dataVal "indexing_status" with
            | .error e => .error e
            | .ok s2 =>
                if s2.truthy then .ok s2
                else
                  match pyGetD document "document" (.dict []) with
                  | .error e => .error e
                  | .ok docVal => pyGet docVal "indexing_status"

/-- The `last_status` of one poll: `str(status) if status is not None else
None` (line 627). -/
def lastStatusOf (document : PyVal) : Except Failure (Option String) :=
  match indexingStatusOf document with
  | .error e => .error e
  | .ok status =>
      .ok (match status with
        | .none => Option.none
        | s => Option.some (pyStr s))

/-- Message of the indexing-failure error (lines 633-635). -/
def indexingFailedMsg (document_id : String) (last_status : Option String) :
    String :=
  "Document " ++ document_id ++ " indexing failed with status " ++
    pyReprOptStr last_status ++ "."

/-- Message of the polling-timeout error (lines 638-641). -/
def timedOutMsg (document_id : String) (last_status : Option String) :
    String :=
  "Timed out waiting for document " ++ document_id ++
    " to complete; last indexing_status was " ++ pyReprOptStr last_status ++
    "."

/-- The polling loop of `_wait_for_completed` (lines 619-643).  Only
`time.sleep` advances the model clock; the deadline was fixed on entry.
The fuel argument makes the recursion structural: with a positive poll
interval the deadline check always fires before `timeout_seconds + 1`
iterations are spent, so the fuel-exhaustion branch is unreachable for the
fuel chosen by `wait_for_completed`; with a zero interval the Python loop
spins without a deadline ever arriving, which the model reports as a
crash. -/
def waitLoop {σ : Type} (cl : Client σ) (fuel : Nat)
    (dataset_id document_id : String) (deadline poll_interval_seconds : Nat)
    (st : EngSt σ) : StepRes σ PyVal :=
  match fuel with
  | 0 => (.error (.crash "polling fuel exhausted"), st)
  | fuel + 1 =>
      stepBind (request cl (.getDocument dataset_id document_id) st)
        (fun document st =>
          stepBind (liftPure (lastStatusOf document) st)
            (fun last_status st =>
              if last_status = Option.some "completed" then (.ok document, st)
              else if last_status = Option.some "error" ∨
                  last_status = Option.some "failed" then
                (.error (.kb
                  ⟨indexingFailedMsg document_id last_status, Option.none,
                    []⟩), st)
              else if st.clock ≥ deadline then
                (.error (.kb
                  ⟨timedOutMsg document_id last_status, Option.none, []⟩),
                  st)
              else
                waitLoop cl fuel dataset_id document_id deadline
                  poll_interval_seconds
                  ⟨st.srv, st.clock + poll_interval_seconds, st.trace⟩))

/-- Embedding of `_wait_for_completed` (lines 604-643): the deadline is
`now + timeout_seconds` at entry. -/
def wait_for_completed {σ : Type} (cl : Client σ)
    (dataset_id document_id : String)
    (timeout_seconds poll_interval_seconds : Nat) (st : EngSt σ) :
    StepRes σ PyVal :=
  waitLoop cl (timeout_seconds + 1) dataset_id document_id
    (st.clock + timeout_seconds) poll_interval_seconds st

/-- Exception-propagating sequencing of two embedded computations (the
shape of every `x; use x` statement pair under Python exception
semantics). -/
@[reducible] def exceptThen {α β : Type} (x : Except Failure α)
    (f : α → Except Failure β) : Except Failure β :=
  match x with
  | .error err => .error err
  | .ok a => f a

/-- The `elif "segments" in response` probe of `_list_segments`. -/
def fallbackSegments (response : PyVal) : Except Failure PyVal :=
  exceptThen (pyContains response "segments") (fun has =>
    if has then
      exceptThen (pyIndex response "segments") (fun segs =>
        .ok (if segs.truthy then segs else .list []))
    else .ok (.list []))

/-- The id-collection loop of `_list_segments` (lines 717-722): each
segment contributes `segment.get("id") or segment.get("segment_id")` when
truthy. -/
def segIdsLoop : List PyVal → Except Failure (List String)
  | [] => .ok []
  | segment :: rest =>
      exceptThen (pyGet segment "id") (fun s1 =>
        exceptThen (if s1.truthy then .ok s1
            else pyGet segment "segment_id") (fun segment_id =>
          exceptThen (segIdsLoop rest) (fun ids =>
            if segment_id.truthy then .ok (pyStr segment_id :: ids)
            else .ok ids)))

/-- Response parsing of `_list_segments` (lines 708-722): probe order
`data.segments`, bare `data` list, top-level `segments`. -/
def parseSegmentsListing (response : PyVal) : Except Failure (List String) :=
  exceptThen (pyGet response "data") (fun dataVal =>
    let segmentsVal : Except Failure PyVal :=
      match dataVal with
      | .dict kvs =>
          if kvs.any (fun kv => kv.1 = "segments") then
            exceptThen (pyIndex dataVal "segments") (fun segs =>
              .ok (if segs.truthy then segs else .list []))
          else fallbackSegments response
      | .list xs => .ok (.list xs)
      | _ => fallbackSegments response
    exceptThen segmentsVal (fun segsVal =>
      exceptThen (pyIter segsVal) (fun segs => segIdsLoop segs)))

/-- Embedding of `_list_segments` (lines 703-722). -/
def list_segments {σ : Type} (cl : Client σ)
    (dataset_id document_id : String) (st : EngSt σ) :
    StepRes σ (List String) :=
  stepBind (request cl (.listSegments dataset_id document_id) st)
    (fun response st => liftPure (parseSegmentsListing response) st)

/-- Embedding of `_delete_segment` (lines 724-740): a
`KnowledgeBaseError` with status 404 whose payload `code` lower-cases to
`not_found` is swallowed; everything else re-raises. -/
def delete_segment {σ : Type} (cl : Client σ)
    (dataset_id document_id segment_id : String) (st : EngSt σ) :
    StepRes σ Unit :=
  match request cl (.deleteSegment dataset_id document_id segment_id) st with
  | (.ok _, st') => (.ok (), st')
  | (.error (.kb exc), st') =>
      if exc.status_code = Option.some 404 then
        let codeVal := (alookup exc.payload "code").getD .none
        let error_code :=
          asciiLower (pyStr (if codeVal.truthy then codeVal else .str ""))
        if error_code = "not_found" then (.ok (), st')
        else (.error (.kb exc), st')
      else (.error (.kb exc), st')
  | (.error e, st') => (.error e, st')

/-- The `for segment_id in segment_ids` deletion loop of
`replace_with_single_segment` (lines 678-679). -/
def deleteSegmentsLoop {σ : Type} (cl : Client σ)
    (dataset_id document_id : String) (segment_ids : List String)
    (st : EngSt σ) : StepRes σ Unit :=
  match segment_ids with
  | [] => (.ok (), st)
  | segment_id :: rest =>
      stepBind (delete_segment cl dataset_id document_id segment_id st)
        (fun _ st => deleteSegmentsLoop cl dataset_id document_id rest st)

/-- Embedding of `_update_document_text` (lines 749-784): fetch the
current name (any `KnowledgeBaseError` there is swallowed and the
document id used as fallback name), then update by text with that name. -/
def update_document_text {σ : Type} (cl : Client σ)
    (dataset_id document_id rendered_text : String) (st : EngSt σ) :
    StepRes σ Unit :=
  let upd := fun (name_value : String) (st : EngSt σ) =>
    stepBind
      (request cl (.updateByText dataset_id document_id rendered_text
        (Option.some name_value)) st)
      (fun _ st => ((.ok () : Except Failure Unit), st))
  match request cl (.getDocument dataset_id document_id) st with
  | (.error (.kb _), st') => upd document_id st'
  | (.error e, st') => (.error e, st')
  | (.ok doc, st') =>
      let raw : Option PyVal :=
        match doc with
        | .dict kvs =>
            match alookup kvs "data" with
            | Option.some (.dict dkvs) => Option.some (.dict dkvs)
            | _ => Option.some (.dict kvs)
        | _ => Option.none
      let name_value :=
        match raw with
        | Option.some (.dict rkvs) =>
            match alookup rkvs "name" with
            | Option.some (.str candidate) =>
                if pyStrip candidate ≠ "" then candidate else document_id
            | _ => document_id
        | _ => document_id
      upd name_value st'

/-- Embedding of `replace_with_single_segment` (lines 645-699): wait for
indexing, push the new text, wait again, delete every listed segment, and
create exactly one segment carrying the content and keywords. -/
def replace_with_single_segment {σ : Type} (cl : Client σ)
    (dataset_id document_id : String) (content : PyVal)
    (keywords : Option (List String))
    (timeout_seconds poll_interval_seconds : Nat) (st : EngSt σ) :
    StepRes σ PyVal :=
  stepBind
    (wait_for_completed cl dataset_id document_id timeout_seconds
      poll_interval_seconds st)
    (fun _ st =>
      let normalized_content := normalize_text content
      stepBind
        (update_document_text cl dataset_id document_id normalized_content
          st)
        (fun _ st =>
          stepBind
            (wait_for_completed cl dataset_id document_id timeout_seconds
              poll_interval_seconds st)
            (fun _ st =>
              stepBind (list_segments cl dataset_id document_id st)
                (fun segment_ids st =>
                  stepBind
                    (deleteSegmentsLoop cl dataset_id document_id
                      segment_ids st)
                    (fun _ st =>
                      stepBind
                        (request cl
                          (.createSegments dataset_id document_id
                            normalized_content (keywords.getD [])) st)
                        (fun _ st =>
                          (.ok (.dict
                            [("dataset_id", .str dataset_id),
                              ("document_id", .str document_id),
                              ("converted_to_single_chunk", .bool true)]),
                            st)))))))

/-! ### Concrete server models

Two instantiations of `Client`:

* `scriptClient` replays a fixed list of transport outcomes, one per
  request, for closed concrete runs;
* `kbClient` is a small reference model of the remote Knowledge Base
  for a single document, with standard segment semantics: `update_by_text`
  restarts indexing (installing an arbitrary status schedule and an
  arbitrary post-reindex segment set, since re-indexing rewrites the
  segment set as a side effect), `GET document` reports and consumes the
  next scheduled status, segment deletion removes by id and returns
  404/`not_found` for an unknown id, and segment creation appends a fresh
  `seg<n>` id. -/

/-- Scripted client: each request consumes the next outcome; an exhausted
script behaves as a transport failure. -/
def scriptClient (baseUrl : String) : Client (List RemoteResult) :=
  ⟨baseUrl, fun script _ =>
    (script.headD (.transport "script exhausted"), script.tail)⟩

/-- A content segment held by the model server. -/
structure Seg : Type where
  id : String
  content : String
  keywords : List String

/-- Model server state for one document of one dataset. -/
structure Server : Type where
  ds : String
  doc : String
  name : String
  text : String
  statuses : List String
  segs : List Seg
  reindexStatuses : List String
  reindexSegs : List Seg
  nextId : Nat

/-- JSON shape of a segment in the listing response. -/
def segJson (sg : Seg) : PyVal :=
  .dict [("id", .str sg.id), ("content", .str sg.content)]

/-- JSON shape of the document returned by `GET document`. -/
def docJson (s : Server) (status : String) : PyVal :=
  .dict [("id", .str s.doc), ("name", .str s.name),
    ("indexing_status", .str status)]

/-- The 404/`not_found` error body served for unknown resources. -/
def notFoundResp : RemoteResult :=
  .http 404 (Option.some (.dict [("code", .str "not_found"),
    ("message", .str "Resource not found.")])) ""

/-- Request handler of the reference server. -/
def serveKB (s : Server) (r : Req) : RemoteResult × Server :=
  match r with
  | .getDocument ds did =>
      if ds = s.ds ∧ did = s.doc then
        (.ok (docJson s (s.statuses.headD "completed")),
          { s with statuses := s.statuses.tail })
      else (notFoundResp, s)
  | .updateByText ds did txt nm =>
      if ds = s.ds ∧ did = s.doc then
        (.ok (.dict []),
          { s with
            text := txt
            name := nm.getD s.name
            statuses := s.reindexStatuses
            segs := s.reindexSegs })
      else (notFoundResp, s)
  | .listSegments ds did =>
      if ds = s.ds ∧ did = s.doc then
        (.ok (.dict [("data", .dict
          [("segments", .list (s.segs.map segJson))])]), s)
      else (notFoundResp, s)
  | .deleteSegment ds did sid =>
      if ds = s.ds ∧ did = s.doc ∧ s.segs.any (fun sg => sg.id = sid) then
        (.ok (.dict []), { s with segs := s.segs.filter (fun sg => sg.id ≠ sid) })
      else (notFoundResp, s)
  | .createSegments ds did content keywords =>
      if ds = s.ds ∧ did = s.doc then
        let sid := "seg" ++ toString s.nextId
        (.ok (.dict [("data", .list [segJson ⟨sid, content, keywords⟩])]),
          { s with
            segs := s.segs ++ [⟨sid, content, keywords⟩]
            nextId := s.nextId + 1 })
      else (notFoundResp, s)
  | _ => (notFoundResp, s)

/-- The reference server as a `Client`. -/
def kbClient : Client Server := ⟨"http://kb.example", serveKB⟩

/-! ### Definitions used only by theorem statements -/

/-- Literal reading of the specification's slug rule: characters outside
`[A-Za-z0-9_-]` are stripped (removed), leading/trailing underscores
trimmed, with the `document` fallback.  This follows the claim's words and
is compared against `slugOf`, which embeds the code's
`re.sub(r"[^A-Za-z0-9_-]+", "_", ...)` substitution. -/
def slugSpecStripped (s : String) : String :=
  let t := stripUnderscores (String.mk (s.data.filter slugAllowedChar))
  if t = "" then "document" else t

/-- Write requests of the upsert engine (document create/update). -/
def isWriteReq (r : Req) : Bool :=
  match r with
  | .createByText _ _ _ _ _ => true
  | .updateByText _ _ _ _ => true
  | _ => false

/-- Segment-creation requests. -/
def isCreateSegmentsReq (r : Req) : Bool :=
  match r with
  | .createSegments _ _ _ _ => true
  | _ => false

/-- Segment-deletion requests. -/
def isDeleteSegmentReq (r : Req) : Bool :=
  match r with
  | .deleteSegment _ _ _ => true
  | _ => false

/-- Segment mutations: deletions or creations. -/
def isSegmentMutationReq (r : Req) : Bool :=
  isDeleteSegmentReq r || isCreateSegmentsReq r

/-- Batched metadata-application requests. -/
def isApplyMetadataReq (r : Req) : Bool :=
  match r with
  | .applyDocumentMetadata _ _ _ => true
  | _ => false

/-- Reference-server fixture: a two-segment document whose re-indexing
after the text update produces two fresh segments. -/
def srvFix : Server :=
  ⟨"d1", "doc1", "report", "old", ["completed"],
    [⟨"s1", "a", []⟩, ⟨"s2", "b", []⟩], ["processing", "completed"],
    [⟨"r1", "x", []⟩, ⟨"r2", "y", []⟩], 0⟩

/-- Reference-server fixture whose document reports indexing status
`error` on the first poll. -/
def srvErr : Server :=
  ⟨"d1", "doc1", "report", "old", ["error"],
    [⟨"s1", "a", []⟩], ["completed"], [⟨"r1", "x", []⟩], 0⟩

/-- Script fixture for a successful create-then-metadata save. -/
def scriptSave : List RemoteResult :=
  [.ok (.dict [("id", .str "docA")]),
   .ok (.dict [("doc_metadata", .list [])]),
   .ok (.dict [("id", .str "m1")]),
   .ok (.dict [("doc_metadata", .list
     [.dict [("id", .str "m1"), ("name", .str "generated_by")]])]),
   .ok (.dict [])]

/-- Script fixture for a save in which every metadata-field creation is
rejected with a 4xx, so no key resolves to a field id and no batched
apply call can be issued. -/
def scriptSaveNoFields : List RemoteResult :=
  [.ok (.dict [("id", .str "docA")]),
   .ok (.dict [("doc_metadata", .list [])]),
   .http 400 (Option.some (.dict [("code", .str "invalid_param")])) "",
   .http 400 (Option.some (.dict [("code", .str "invalid_param")])) "",
   .ok (.dict [("doc_metadata", .list [])])]

/-- Script fixture for a replacement run in which the only segment
deletion is answered 404/`not_found` (tolerated) and the final segment
creation is answered 404/`not_found` (fatal). -/
def scriptDelete404 : List RemoteResult :=
  [.ok (.dict [("indexing_status", .str "completed")]),
   .ok (.dict [("name", .str "report"), ("indexing_status", .str "completed")]),
   .ok (.dict []),
   .ok (.dict [("indexing_status", .str "completed")]),
   .ok (.dict [("data", .dict [("segments", .list
     [.dict [("id", .str "s1")]])])]),
   .http 404 (Option.some (.dict [("code", .str "not_found")])) "",
   .http 404 (Option.some (.dict [("code", .str "not_found")])) ""]

/-! ## Theorems -/

/-! ### Association-list lemmas -/

theorem alookup_aset_self (m : List (String × PyVal)) (k : String) (v : PyVal) :
    alookup (aset m k v) k = Option.some v := by
  induction m with
  | nil => simp [aset, alookup]
  | cons hd tl ih =>
      obtain ⟨k', v'⟩ := hd
      by_cases h : k' = k
      · simp [aset, h, alookup]
      · simp [aset, h, alookup, ih]

theorem alookup_aset_other (m : List (String × PyVal)) (k : String)
    (v : PyVal) (k' : String) (h : k' ≠ k) :
    alookup (aset m k v) k' = alookup m k' := by
  induction m with
  | nil => simp [aset, alookup, Ne.symm h]
  | cons hd tl ih =>
      obtain ⟨k1, v1⟩ := hd
      by_cases h1 : k1 = k
      · subst h1
        simp [aset, alookup, Ne.symm h]
      · simp only [aset, if_neg h1, alookup]
        by_cases h2 : k1 = k'
        · simp [h2]
        · simp [h2, ih]

theorem alookup_adictUpdate_isSome (upd base : List (String × PyVal))
    (k : String) (h : (alookup base k).isSome = true) :
    (alookup (adictUpdate base upd) k).isSome = true := by
  induction upd generalizing base with
  | nil => simpa [adictUpdate] using h
  | cons hd tl ih =>
      obtain ⟨k1, v1⟩ := hd
      simp only [adictUpdate]
      apply ih
      by_cases h1 : k = k1
      · subst h1
        simp [alookup_aset_self]
      · simpa [alookup_aset_other base k1 v1 k h1] using h

theorem alookup_adictUpdate_absent (upd base : List (String × PyVal))
    (k : String) (h : alookup upd k = Option.none) :
    alookup (adictUpdate base upd) k = alookup base k := by
  induction upd generalizing base with
  | nil => simp [adictUpdate]
  | cons hd tl ih =>
      obtain ⟨k1, v1⟩ := hd
      simp only [alookup] at h
      by_cases h1 : k1 = k
      · simp [h1] at h
      · simp only [if_neg h1] at h
        simp only [adictUpdate]
        rw [ih (aset base k1 v1) h]
        exact alookup_aset_other base k1 v1 k (fun hh => h1 hh.symm)

/-! ### C9: the `coerce_json` contract -/

/-- C9: `coerce_json` returns the default for `None`/empty input when not
required; fails with a `ValueError` for `None`/empty input when required;
fails with a `ValueError` naming the field and the decode error for a
non-empty non-JSON string; returns the decoded value for a valid JSON
string (in particular `coerce_json('\x7b"a":1\x7d') == \x7b"a": 1\x7d`);
and returns dict or list input unchanged. -/
theorem C9_coerce_json_contract :
    (∀ fn d, coerce_json .none fn false d = .ok d ∧
      coerce_json (.str "") fn false d = .ok d) ∧
    (∀ fn d, coerce_json .none fn true d =
        .error (.val (fn ++ " is required.")) ∧
      coerce_json (.str "") fn true d =
        .error (.val (fn ++ " cannot be empty."))) ∧
    (∀ fn req d s e, pyStrip s ≠ "" → pyJsonLoads (pyStrip s) = .error e →
      coerce_json (.str s) fn req d =
        .error (.val (fn ++ " is not valid JSON: " ++ e))) ∧
    (∀ fn req d s v, pyStrip s ≠ "" → pyJsonLoads (pyStrip s) = .ok v →
      coerce_json (.str s) fn req d = .ok v) ∧
    (coerce_json (.str "\x7b\"a\":1\x7d") "f" false .none =
      .ok (.dict [("a", .int 1)])) ∧
    (∀ fn req d kvs, coerce_json (.dict kvs) fn req d = .ok (.dict kvs)) ∧
    (∀ fn req d xs, coerce_json (.list xs) fn req d = .ok (.list xs)) := by
  refine ⟨fun fn d => ⟨rfl, rfl⟩, fun fn d => ⟨rfl, rfl⟩, ?_, ?_, rfl,
    fun fn req d kvs => rfl, fun fn req d xs => rfl⟩
  · intro fn req d s e hs hp
    simp [coerce_json, hs, hp]
  · intro fn req d s v hs hp
    simp [coerce_json, hs, hp]

/-- Witness for C9 at concrete inputs: a valid JSON string decodes, an
invalid one fails naming the field. -/
theorem C9_witness :
    coerce_json (.str " \x7b\"a\": 1\x7d ") "data" true .none =
      .ok (.dict [("a", .int 1)]) ∧
    coerce_json (.str "oops") "data" true .none =
      .error (.val "data is not valid JSON: Expecting value") :=
  ⟨C9_coerce_json_contract.2.2.2.1 "data" true .none " \x7b\"a\": 1\x7d "
      (.dict [("a", .int 1)]) (by decide) rfl,
    C9_coerce_json_contract.2.2.1 "data" true .none "oops" "Expecting value"
      (by decide) rfl⟩

/-! ### C10: upsert-mode normalization -/

/-- C10: any `upsert_mode` input that is not a string, or whose trimmed
lower-cased form is not one of the three allowed modes, silently
normalizes to `create_or_update`; consequently a save with a misspelled
`update_onlyy` mode and no identifiers creates a new document instead of
failing. -/
theorem C10_upsert_mode_normalization :
    (∀ v : PyVal, (∀ s, v ≠ .str s) →
      normalize_upsert_mode v = "create_or_update") ∧
    (∀ s : String, asciiLower (pyStrip s) ≠ "create_or_update" →
      asciiLower (pyStrip s) ≠ "create_only" →
      asciiLower (pyStrip s) ≠ "update_only" →
      normalize_upsert_mode (.str s) = "create_or_update") ∧
    ((save_text_document (scriptClient "http://kb") (mkDocCore Option.none)
        (.str "hello")
        { dataset_id := .str "d9", upsert_mode := .str "update_onlyy" }
        .none "20240101-000000" "abcdef99" ⟨scriptSave, 0, []⟩).1 =
      .ok ⟨true, "d9", "docA",
        Option.some [("generated_by", .str "DocFactory")]⟩) ∧
    (((save_text_document (scriptClient "http://kb") (mkDocCore Option.none)
        (.str "hello")
        { dataset_id := .str "d9", upsert_mode := .str "update_onlyy" }
        .none "20240101-000000" "abcdef99" ⟨scriptSave, 0, []⟩).2).trace.head? =
      Option.some (.createByText "d9"
        "docfactory_document_20240101-000000_abcdef" "hello" "high_quality"
        "automatic")) := by
  refine ⟨?_, ?_, rfl, rfl⟩
  · intro v h
    cases v with
    | str s => exact absurd rfl (h s)
    | none => rfl
    | bool b => rfl
    | int n => rfl
    | flt l => rfl
    | list xs => rfl
    | dict kvs => rfl
  · intro s h1 h2 h3
    simp [normalize_upsert_mode, h1, h2, h3]

/-- Witness for C10 at concrete inputs: a non-string mode and a misspelled
mode both normalize to `create_or_update`. -/
theorem C10_witness :
    normalize_upsert_mode (.int 7) = "create_or_update" ∧
    normalize_upsert_mode (.str " Update_Onlyy ") = "create_or_update" :=
  ⟨C10_upsert_mode_normalization.1 (.int 7) (fun s h => PyVal.noConfusion h),
    C10_upsert_mode_normalization.2.1 " Update_Onlyy " (by decide) (by decide)
      (by decide)⟩

/-! ### C7: the `generated_by` marker -/

/-- C7 counterexample: a caller-supplied `generated_by` key overrides the
marker, so the assembled payload does not always carry the fixed value
`DocFactory` — with input `\x7b"generated_by": "custom"\x7d` the
assembled payload maps `generated_by` to `custom`. -/
theorem C7_counterexample :
    alookup ((assemble_metadata
        (Option.some [("generated_by", PyVal.str "custom")])).getD [])
      "generated_by" = Option.some (PyVal.str "custom") ∧
    PyVal.str "custom" ≠ PyVal.str "DocFactory" := by
  refine ⟨rfl, ?_⟩
  intro h
  have : "custom" = "DocFactory" := PyVal.str.inj h
  exact absurd this (by decide)

/-- C7 amended: the assembled metadata payload always contains the key
`generated_by`; its value is the fixed marker `DocFactory` unless the
caller-supplied mapping itself binds `generated_by`, in which case the
caller's value overrides the marker. -/
theorem C7_generated_by_marker :
    (∀ metadata, (alookup ((assemble_metadata metadata).getD [])
      "generated_by").isSome = true) ∧
    (∀ metadata,
      (∀ kvs, metadata = Option.some kvs →
        alookup kvs "generated_by" = Option.none) →
      alookup ((assemble_metadata metadata).getD []) "generated_by" =
        Option.some (PyVal.str "DocFactory")) ∧
    (alookup ((assemble_metadata
        (Option.some [("generated_by", PyVal.str "custom")])).getD [])
      "generated_by" = Option.some (PyVal.str "custom")) := by
  refine ⟨?_, ?_, rfl⟩
  · intro metadata
    cases metadata with
    | none => rfl
    | some kvs =>
        by_cases h : kvs.isEmpty
        · simp [assemble_metadata, h, alookup]
        · have hbase : (alookup [("generated_by", PyVal.str "DocFactory")]
              "generated_by").isSome = true := by simp [alookup]
          have := alookup_adictUpdate_isSome kvs
            [("generated_by", PyVal.str "DocFactory")] "generated_by" hbase
          simp only [assemble_metadata, h, if_neg]
          simp only [if_false, Bool.false_eq_true]
          by_cases hE : (adictUpdate [("generated_by", PyVal.str "DocFactory")]
              kvs).isEmpty
          · exact absurd (Option.isSome_iff_exists.mp this)
              (by
                rcases List.isEmpty_iff.mp hE with hnil
                rw [hnil]
                simp [alookup])
          · simpa [hE] using this
  · intro metadata hnone
    cases metadata with
    | none => rfl
    | some kvs =>
        by_cases h : kvs.isEmpty
        · simp [assemble_metadata, h, alookup]
        · have habs := alookup_adictUpdate_absent kvs
            [("generated_by", PyVal.str "DocFactory")] "generated_by"
            (hnone kvs rfl)
          have hres : alookup (adictUpdate
              [("generated_by", PyVal.str "DocFactory")] kvs)
              "generated_by" = Option.some (PyVal.str "DocFactory") := by
            rw [habs]; simp [alookup]
          by_cases hE : (adictUpdate [("generated_by", PyVal.str "DocFactory")]
              kvs).isEmpty
          · exact absurd hres
              (by
                rcases List.isEmpty_iff.mp hE with hnil
                rw [hnil]
                simp [alookup])
          · simpa [assemble_metadata, h, hE] using hres

/-- Witness for C7 at concrete inputs: without a caller-supplied
`generated_by` the marker value appears. -/
theorem C7_witness :
    alookup ((assemble_metadata
        (Option.some [("customer", PyVal.str "ACME")])).getD [])
      "generated_by" = Option.some (PyVal.str "DocFactory") :=
  C7_generated_by_marker.2.1 (Option.some [("customer", PyVal.str "ACME")])
    (fun kvs hk => by
      cases hk
      rfl)

/-! ### C6: generated document names -/

theorem subRunsAux_all_allowed (l : List Char) :
    ∀ flag, (subRunsAux flag l).all slugAllowedChar = true := by
  induction l with
  | nil => intro flag; rfl
  | cons c cs ih =>
      intro flag
      by_cases h : slugAllowedChar c
      · simp [subRunsAux, h, ih]
      · cases flag with
        | true => simpa [subRunsAux, h] using ih true
        | false =>
            have : slugAllowedChar '_' = true := by decide
            simp [subRunsAux, h, this, ih]

theorem stripUnderscores_all_allowed (s : String)
    (h : s.data.all slugAllowedChar = true) :
    (stripUnderscores s).data.all slugAllowedChar = true := by
  rw [List.all_eq_true] at h ⊢
  intro c hc
  apply h
  simp only [stripUnderscores] at hc
  have h1 := (@List.dropWhile_sublist Char
    ((s.data.dropWhile (fun c => decide (c = '_'))).reverse)
    (fun c => decide (c = '_'))).subset
  have h2 := (@List.dropWhile_sublist Char s.data
    (fun c => decide (c = '_'))).subset
  have hc' := List.mem_reverse.mp hc
  have hc'' := h1 hc'
  have hc3 := List.mem_reverse.mp hc''
  exact h2 hc3

theorem slugOf_all_allowed (s : String) :
    (slugOf s).data.all slugAllowedChar = true := by
  by_cases h : stripUnderscores (reSubSlug s) = ""
  · simp only [slugOf, h, if_pos]
    decide
  · simp only [slugOf, if_neg h]
    exact stripUnderscores_all_allowed _ (subRunsAux_all_allowed _ false)

theorem slugOf_ne_empty (s : String) : slugOf s ≠ "" := by
  by_cases h : stripUnderscores (reSubSlug s) = ""
  · simp only [slugOf, h, if_pos]
    decide
  · simp only [slugOf, if_neg h]
    exact h

/-- C6 counterexample: the claim's literal rule removes every character
outside `[A-Za-z0-9_-]`, which would turn `AB 12/34` into `AB1234`; the
code instead replaces each such run with an underscore, producing
`AB_12_34`, so the generated name differs from the claim's form at this
input. -/
theorem C6_counterexample :
    generate_document_name (.dict [("customer_code", PyVal.str "AB 12/34")])
      "20240101-000000" "abcdef99" ≠
    "docfactory_" ++ slugSpecStripped "AB 12/34" ++ "_" ++ "20240101-000000"
      ++ "_" ++ pyTake "abcdef99" 6 := by decide

/-- C6 amended: the generated name is `docfactory_` + slug + `_` +
timestamp + `_` + the first six characters of the uuid hex, where the slug
arises from the first non-empty name-like context value (fallback
`document`) by replacing each maximal run of characters outside
`[A-Za-z0-9_-]` with a single underscore and trimming leading/trailing
underscores (empty result falls back to `document`); the slug therefore
only contains characters of the class, and the context
`\x7b"customer_code": "AB 12/34"\x7d` yields
`docfactory_AB_12_34_<timestamp>_<6hex>`. -/
theorem C6_generated_name_shape :
    (∀ dc ts hex, generate_document_name dc ts hex =
      "docfactory_" ++ slugOf (firstNameSource dc) ++ "_" ++ ts ++ "_" ++
        pyTake hex 6) ∧
    (∀ s, (slugOf s).data.all slugAllowedChar = true ∧ slugOf s ≠ "") ∧
    (∀ ts hex,
      generate_document_name (.dict [("customer_code", PyVal.str "AB 12/34")])
        ts hex = "docfactory_AB_12_34_" ++ ts ++ "_" ++ pyTake hex 6) :=
  ⟨fun dc ts hex => rfl,
    fun s => ⟨slugOf_all_allowed s, slugOf_ne_empty s⟩,
    fun ts hex => rfl⟩

/-! ### C3 and C4: upsert failure modes without writes -/

/-- C3: when a document with the requested name exists in the listing
(matched case-insensitively) and the mode is `create_only`,
`save_text_document` fails with the already-exists `KnowledgeBaseError`
and the only request ever issued is the name listing: no create-by-text
and no update-by-text call occurs. -/
theorem C3_create_only_conflict_no_write {σ : Type} (cl : Client σ)
    (core : DocCore) (rendered_text : PyVal) (params : Params)
    (dc : PyVal) (ts hex : String) (srv : σ) (clock : Nat) (ds : String)
    (mi : Option (List (String × PyVal))) (nm : String) (resp : PyVal)
    (srv2 : σ) (doc : PyVal)
    (hres : resolve_dataset_id core params = .ok ds)
    (hparse : parse_metadata params.metadata_json = .ok mi)
    (hdocid : safe_str params.document_id = Option.none)
    (hname : safe_str params.document_name = Option.some nm)
    (hmode : normalize_upsert_mode params.upsert_mode = "create_only")
    (hserve : cl.serve srv (.listDocuments ds 1 200 nm) = (.ok resp, srv2))
    (hfind : findDocInListing resp nm = .ok (Option.some doc)) :
    save_text_document cl core rendered_text params dc ts hex
        ⟨srv, clock, []⟩ =
      (.error (.kb
        ⟨"Document already exists but upsert_mode is create_only.",
          Option.none, []⟩),
        ⟨srv2, clock, [.listDocuments ds 1 200 nm]⟩) ∧
    ((save_text_document cl core rendered_text params dc ts hex
        ⟨srv, clock, []⟩).2).trace.filter isWriteReq = [] := by
  have hmain : save_text_document cl core rendered_text params dc ts hex
      ⟨srv, clock, []⟩ =
      (.error (.kb
        ⟨"Document already exists but upsert_mode is create_only.",
          Option.none, []⟩),
        ⟨srv2, clock, [.listDocuments ds 1 200 nm]⟩) := by
    simp only [save_text_document, liftPure, stepBind, hres, hparse, hdocid,
      hname, hmode, ensure_document_for_upsert, find_document_by_name,
      request, hserve, hfind]
    rfl
  refine ⟨hmain, ?_⟩
  rw [hmain]
  rfl

/-- Witness for C3: a concrete client whose listing returns a document
named `Report` matching the requested name `report` case-insensitively. -/
theorem C3_witness :
    save_text_document (scriptClient "http://kb") (mkDocCore Option.none)
        (.str "hello")
        { dataset_id := .str "d9", document_name := .str "report",
          upsert_mode := .str "create_only" }
        .none "20240101-000000" "abcdef99"
        ⟨[.ok (.dict [("data", .dict [("documents", .list
          [.dict [("id", .str "doc7"), ("name", .str "Report")]])])])], 0,
          []⟩ =
      (.error (.kb
        ⟨"Document already exists but upsert_mode is create_only.",
          Option.none, []⟩),
        ⟨[], 0, [.listDocuments "d9" 1 200 "report"]⟩) :=
  (C3_create_only_conflict_no_write (scriptClient "http://kb")
    (mkDocCore Option.none) (.str "hello")
    { dataset_id := .str "d9", document_name := .str "report",
      upsert_mode := .str "create_only" }
    .none "20240101-000000" "abcdef99"
    [.ok (.dict [("data", .dict [("documents", .list
      [.dict [("id", .str "doc7"), ("name", .str "Report")]])])])]
    0 "d9" Option.none
    "report"
    (.dict [("data", .dict [("documents", .list
      [.dict [("id", .str "doc7"), ("name", .str "Report")]])])])
    [] (.dict [("id", .str "doc7"), ("name", .str "Report")])
    rfl rfl rfl rfl rfl rfl rfl).1

/-- C4: with both identifiers absent or blank and mode `update_only`,
`save_text_document` fails with the identifier-required
`KnowledgeBaseError` before any HTTP call: the state is untouched and the
trace stays empty. -/
theorem C4_update_only_requires_identifier {σ : Type} (cl : Client σ)
    (core : DocCore) (rendered_text : PyVal) (params : Params)
    (dc : PyVal) (ts hex : String) (srv : σ) (clock : Nat) (ds : String)
    (mi : Option (List (String × PyVal)))
    (hres : resolve_dataset_id core params = .ok ds)
    (hparse : parse_metadata params.metadata_json = .ok mi)
    (hdocid : safe_str params.document_id = Option.none)
    (hname : safe_str params.document_name = Option.none)
    (hmode : normalize_upsert_mode params.upsert_mode = "update_only") :
    save_text_document cl core rendered_text params dc ts hex
        ⟨srv, clock, []⟩ =
      (.error (.kb
        ⟨"document_name or document_id is required when upsert_mode is update_only.",
          Option.none, []⟩),
        ⟨srv, clock, []⟩) := by
  simp only [save_text_document, liftPure, stepBind, hres, hparse, hdocid,
    hname, hmode, ensure_document_for_upsert]
  rfl

/-- Witness for C4: blank identifiers and `update_only` fail with the
identifier-required error and an empty trace. -/
theorem C4_witness :
    save_text_document (scriptClient "http://kb") (mkDocCore Option.none)
        (.str "hello")
        { dataset_id := .str "d9", document_id := .str "  ",
          document_name := .str "", upsert_mode := .str "update_only" }
        .none "20240101-000000" "abcdef99" ⟨[], 0, []⟩ =
      (.error (.kb
        ⟨"document_name or document_id is required when upsert_mode is update_only.",
          Option.none, []⟩),
        ⟨[], 0, []⟩) :=
  C4_update_only_requires_identifier (scriptClient "http://kb")
    (mkDocCore Option.none) (.str "hello")
    { dataset_id := .str "d9", document_id := .str "  ",
      document_name := .str "", upsert_mode := .str "update_only" }
    .none "20240101-000000" "abcdef99" [] 0 "d9" Option.none
    rfl rfl rfl rfl rfl

/-! ### C5: the reported `metadata_applied` -/

theorem aset_ne_nil (m : List (String × PyVal)) (k : String) (v : PyVal) :
    aset m k v ≠ [] := by
  cases m with
  | nil => simp [aset]
  | cons hd tl =>
      obtain ⟨k', v'⟩ := hd
      by_cases h : k' = k <;> simp [aset, h]

theorem adictUpdate_ne_nil (upd base : List (String × PyVal))
    (h : base ≠ []) : adictUpdate base upd ≠ [] := by
  induction upd generalizing base with
  | nil => simpa [adictUpdate] using h
  | cons hd tl ih =>
      obtain ⟨k, v⟩ := hd
      simp only [adictUpdate]
      exact ih (aset base k v) (aset_ne_nil base k v)

theorem assemble_metadata_eq_some (mi : Option (List (String × PyVal))) :
    ∃ kvs, assemble_metadata mi = Option.some kvs ∧ kvs.isEmpty = false := by
  cases mi with
  | none => exact ⟨_, rfl, rfl⟩
  | some m =>
      by_cases h : m.isEmpty
      · refine ⟨[("generated_by", PyVal.str "DocFactory")], ?_, rfl⟩
        simp [assemble_metadata, h]
      · refine ⟨adictUpdate [("generated_by", PyVal.str "DocFactory")] m, ?_, ?_⟩
        · have hne := adictUpdate_ne_nil m
            [("generated_by", PyVal.str "DocFactory")] (by simp)
          simp [assemble_metadata, h, hne]
        · cases hq : adictUpdate [("generated_by", PyVal.str "DocFactory")] m with
          | nil =>
              exact absurd hq (adictUpdate_ne_nil m
                [("generated_by", PyVal.str "DocFactory")] (by simp))
          | cons a l => rfl

theorem apply_metadata_ok_returns_input {σ : Type} (cl : Client σ)
    (ds did : String) (md : List (String × PyVal)) (st st' : EngSt σ)
    (r : Option (List (String × PyVal))) (hmd : md.isEmpty = false)
    (h : apply_metadata cl ds did (Option.some md) st = (.ok r, st')) :
    r = Option.some md := by
  simp only [apply_metadata, hmd, Bool.false_eq_true, if_false] at h
  rcases hx : request cl (.getMetadataFields ds) st with ⟨res1, st1⟩
  rw [hx] at h
  cases res1 with
  | error e =>
      simp only [stepBind] at h
      exact Except.noConfusion (congrArg Prod.fst h)
  | ok resp =>
      simp only [stepBind] at h
      cases hextract : extract_items resp with
      | none =>
          simp only [hextract] at h
          exact (Except.ok.inj (congrArg Prod.fst h)).symm
      | some items =>
          simp only [hextract] at h
          rcases hl : ensureFieldsLoop cl ds (md.map (fun kv => kv.1))
              (collectNameToId items []) st1 with ⟨res2, st2⟩
          rw [hl] at h
          cases res2 with
          | error e =>
              simp only [stepBind] at h
              exact Except.noConfusion (congrArg Prod.fst h)
          | ok nti =>
              simp only [stepBind] at h
              rcases hx2 : request cl (.getMetadataFields ds) st2 with
                ⟨res3, st3⟩
              rw [hx2] at h
              cases res3 with
              | error e =>
                  simp only [stepBind] at h
                  exact Except.noConfusion (congrArg Prod.fst h)
              | ok resp2 =>
                  simp only [stepBind] at h
                  cases hextract2 : extract_items resp2 with
                  | none =>
                      simp only [hextract2] at h
                      by_cases hml : (buildMetadataList md nti).isEmpty
                      · rw [if_pos hml] at h
                        exact (Except.ok.inj (congrArg Prod.fst h)).symm
                      · rw [if_neg hml] at h
                        rcases hx3 : request cl
                            (.applyDocumentMetadata ds did
                              (buildMetadataList md nti)) st3 with ⟨res4, st4⟩
                        rw [hx3] at h
                        cases res4 with
                        | error e =>
                            simp only [stepBind] at h
                            exact Except.noConfusion (congrArg Prod.fst h)
                        | ok v =>
                            simp only [stepBind] at h
                            exact (Except.ok.inj (congrArg Prod.fst h)).symm
                  | some items2 =>
                      simp only [hextract2] at h
                      by_cases hml : (buildMetadataList md
                          (collectNameToId items2 nti)).isEmpty
                      · rw [if_pos hml] at h
                        exact (Except.ok.inj (congrArg Prod.fst h)).symm
                      · rw [if_neg hml] at h
                        rcases hx3 : request cl
                            (.applyDocumentMetadata ds did
                              (buildMetadataList md
                                (collectNameToId items2 nti))) st3 with
                          ⟨res4, st4⟩
                        rw [hx3] at h
                        cases res4 with
                        | error e =>
                            simp only [stepBind] at h
                            exact Except.noConfusion (congrArg Prod.fst h)
                        | ok v =>
                            simp only [stepBind] at h
                            exact (Except.ok.inj (congrArg Prod.fst h)).symm

/-- C5 counterexample: with metadata `\x7b"extra":1\x7d` and a dataset
whose field-creation calls are rejected with 4xx, no key resolves to a
field id, so no batched apply call is issued — yet the returned
`metadata_applied` is the full assembled payload (including the dropped
key `extra`) instead of `None`. -/
theorem C5_counterexample :
    (save_text_document (scriptClient "http://kb") (mkDocCore Option.none)
        (.str "hello")
        { dataset_id := .str "d9",
          metadata_json := .str "\x7b\"extra\":1\x7d" }
        .none "20240101-000000" "abcdef99" ⟨scriptSaveNoFields, 0, []⟩).1 =
      .ok ⟨true, "d9", "docA",
        Option.some [("generated_by", .str "DocFactory"),
          ("extra", .int 1)]⟩ ∧
    ((save_text_document (scriptClient "http://kb") (mkDocCore Option.none)
        (.str "hello")
        { dataset_id := .str "d9",
          metadata_json := .str "\x7b\"extra\":1\x7d" }
        .none "20240101-000000" "abcdef99"
        ⟨scriptSaveNoFields, 0, []⟩).2).trace.filter isApplyMetadataReq =
      [] ∧
    (Option.some [("generated_by", PyVal.str "DocFactory"),
        ("extra", PyVal.int 1)] ≠
      (Option.none : Option (List (String × PyVal)))) := by
  refine ⟨rfl, rfl, ?_⟩
  intro hcontra
  exact Option.noConfusion hcontra

/-- C5 amended: on every successful save the reported `metadata_applied`
is the full assembled metadata payload (caller metadata plus the
`generated_by` marker), regardless of which keys were actually applied;
keys with no resolvable field id are dropped only from the batched apply
request, not from the reported value, and the reported value is never
`None` on success. -/
theorem C5_metadata_applied_full_payload {σ : Type} (cl : Client σ)
    (core : DocCore) (rendered_text : PyVal) (params : Params) (dc : PyVal)
    (ts hex : String) (st st' : EngSt σ) (summary : SaveSummary)
    (mi : Option (List (String × PyVal)))
    (hparse : parse_metadata params.metadata_json = .ok mi)
    (h : save_text_document cl core rendered_text params dc ts hex st =
      (.ok summary, st')) :
    summary.metadata_applied = assemble_metadata mi ∧
    summary.metadata_applied.isSome = true := by
  obtain ⟨kvs, hassem, hkne⟩ := assemble_metadata_eq_some mi
  simp only [save_text_document, liftPure] at h
  cases hres : resolve_dataset_id core params with
  | error e =>
      rw [hres] at h
      simp only [stepBind] at h
      exact Except.noConfusion (congrArg Prod.fst h)
  | ok ds =>
      rw [hres] at h
      simp only [stepBind] at h
      rw [hparse] at h
      simp only [stepBind] at h
      rw [hassem] at h
      rcases hens : ensure_document_for_upsert cl ds
          (safe_str params.document_id) (safe_str params.document_name)
          (normalize_upsert_mode params.upsert_mode)
          (normalize_text rendered_text) dc ts hex st with ⟨res2, st2⟩
      rw [hens] at h
      cases res2 with
      | error e =>
          simp only [stepBind] at h
          exact Except.noConfusion (congrArg Prod.fst h)
      | ok resolved =>
          simp only [stepBind] at h
          rw [hkne] at h
          simp only [Bool.false_eq_true, if_false] at h
          rcases happ : apply_metadata cl ds resolved (Option.some kvs) st2
            with ⟨res3, st3⟩
          rw [happ] at h
          cases res3 with
          | error e =>
              simp only [stepBind] at h
              exact Except.noConfusion (congrArg Prod.fst h)
          | ok applied =>
              simp only [stepBind] at h
              have hsum := Except.ok.inj (congrArg Prod.fst h)
              have hval := apply_metadata_ok_returns_input cl ds resolved kvs
                st2 st3 applied hkne happ
              rw [← hsum]
              simp [hval, hassem]

/-- Witness for C5's amended theorem at a concrete successful save. -/
theorem C5_witness :
    ((save_text_document (scriptClient "http://kb") (mkDocCore Option.none)
        (.str "hello") { dataset_id := .str "d9" } .none "20240101-000000"
        "abcdef99" ⟨scriptSave, 0, []⟩).1 =
      .ok ⟨true, "d9", "docA",
        Option.some [("generated_by", .str "DocFactory")]⟩) ∧
    (SaveSummary.metadata_applied ⟨true, "d9", "docA",
        Option.some [("generated_by", .str "DocFactory")]⟩ =
      assemble_metadata Option.none ∧
    (SaveSummary.metadata_applied ⟨true, "d9", "docA",
        Option.some [("generated_by", .str "DocFactory")]⟩).isSome = true) :=
  ⟨rfl,
    C5_metadata_applied_full_payload (scriptClient "http://kb")
      (mkDocCore Option.none) (.str "hello") { dataset_id := .str "d9" }
      .none "20240101-000000" "abcdef99" ⟨scriptSave, 0, []⟩
      ((save_text_document (scriptClient "http://kb") (mkDocCore Option.none)
        (.str "hello") { dataset_id := .str "d9" } .none "20240101-000000"
        "abcdef99" ⟨scriptSave, 0, []⟩).2)
      ⟨true, "d9", "docA", Option.some [("generated_by", .str "DocFactory")]⟩
      Option.none rfl rfl⟩

/-! ### Request-error classification

Every error raised by the client wrapper is a `KnowledgeBaseError` whose
message starts with `Request to ` (transport) or `Dify API error `
(HTTP), so an engine-raised message such as the indexing-failure one can
never be confused with a remote error. -/

theorem append_data_get (a b : String) (n : Nat) (hn : n < a.data.length) :
    (a ++ b).data.get? n = a.data.get? n := by
  rw [String.data_append]
  exact List.get?_append hn

theorem append_data_length (a b : String) :
    (a ++ b).data.length = a.data.length + b.data.length := by
  rw [String.data_append, List.length_append]

theorem request_error_kind {σ : Type} (cl : Client σ) (r : Req)
    (st st' : EngSt σ) (f : Failure)
    (h : (request cl r st).1 = .error f) :
    ∃ e, f = .kb e ∧
      (e.message.data.get? 0 = Option.some 'R' ∨
        e.message.data.get? 1 = Option.some 'i') := by
  rcases hs : cl.serve st.srv r with ⟨rr, srv2⟩
  cases rr with
  | ok v =>
      simp only [request, hs] at h
      exact Except.noConfusion h
  | transport m =>
      simp only [request, hs] at h
      have hf := (Except.error.inj h).symm
      refine ⟨_, hf, Or.inl ?_⟩
      have h0 : ("Request to " : String).data.length = 11 := by decide
      have h1 : ("Request to " ++ cl.baseUrl).data.length ≥ 11 := by
        rw [append_data_length]; omega
      have h2 : ("Request to " ++ cl.baseUrl ++ r.path).data.length ≥ 11 := by
        rw [append_data_length]; omega
      have h3 : ("Request to " ++ cl.baseUrl ++ r.path ++ " failed: ").data.length ≥ 11 := by
        rw [append_data_length]; omega
      rw [append_data_get _ _ 0 (by omega), append_data_get _ _ 0 (by omega),
        append_data_get _ _ 0 (by omega), append_data_get _ _ 0 (by decide)]
      rfl
  | http status payload text =>
      simp only [request, hs] at h
      have hf := (Except.error.inj h).symm
      refine ⟨_, hf, Or.inr ?_⟩
      have h0 : ("Dify API error " : String).data.length = 15 := by decide
      have h1 : ("Dify API error " ++ toString status).data.length ≥ 15 := by
        rw [append_data_length]; omega
      have h2 : ("Dify API error " ++ toString status ++ " for ").data.length ≥ 15 := by
        rw [append_data_length]; omega
      have h3 : ("Dify API error " ++ toString status ++ " for " ++
          r.method).data.length ≥ 15 := by
        rw [append_data_length]; omega
      have h4 : ("Dify API error " ++ toString status ++ " for " ++ r.method ++
          " ").data.length ≥ 15 := by
        rw [append_data_length]; omega
      have h5 : ("Dify API error " ++ toString status ++ " for " ++ r.method ++
          " " ++ r.path).data.length ≥ 15 := by
        rw [append_data_length]; omega
      have h6 : ("Dify API error " ++ toString status ++ " for " ++ r.method ++
          " " ++ r.path ++ ": ").data.length ≥ 15 := by
        rw [append_data_length]; omega
      rw [append_data_get _ _ 1 (by omega), append_data_get _ _ 1 (by omega),
        append_data_get _ _ 1 (by omega), append_data_get _ _ 1 (by omega),
        append_data_get _ _ 1 (by omega), append_data_get _ _ 1 (by omega),
        append_data_get _ _ 1 (by omega)]
      rfl

/-! ### C8: 404/`not_found` leniency is confined to segment deletion -/

/-- C8: a delete-segment call that succeeds passes through; a delete that
fails with status 404 and payload code lower-casing to `not_found` is
treated as already satisfied (`ok`, loop continues); every other
delete-segment failure re-raises the original wrapped error and aborts.
The leniency lives only in the segment-delete path: in the same
replacement run a 404/`not_found` answer to the one segment deletion is
tolerated (the subsequent create is still issued) while the same answer
to the segment creation fails the whole operation, and a 404/`not_found`
answer to the very first status poll also fails the operation. -/
theorem C8_delete_segment_not_found_leniency :
    (∀ (σ : Type) (cl : Client σ) (srv : σ) (clock : Nat) (tr : List Req)
        (ds did sid : String) (v : PyVal) (srv2 : σ),
      cl.serve srv (.deleteSegment ds did sid) = (.ok v, srv2) →
      delete_segment cl ds did sid ⟨srv, clock, tr⟩ =
        (.ok (), ⟨srv2, clock, tr ++ [.deleteSegment ds did sid]⟩)) ∧
    (∀ (σ : Type) (cl : Client σ) (srv : σ) (clock : Nat) (tr : List Req)
        (ds did sid : String) (e : KBError),
      (request cl (.deleteSegment ds did sid) ⟨srv, clock, tr⟩).1 =
        .error (.kb e) →
      e.status_code = Option.some 404 →
      asciiLower (pyStr (if ((alookup e.payload "code").getD .none).truthy
          then (alookup e.payload "code").getD .none else .str "")) =
        "not_found" →
      delete_segment cl ds did sid ⟨srv, clock, tr⟩ =
        (.ok (), (request cl (.deleteSegment ds did sid)
          ⟨srv, clock, tr⟩).2)) ∧
    (∀ (σ : Type) (cl : Client σ) (srv : σ) (clock : Nat) (tr : List Req)
        (ds did sid : String) (e : KBError),
      (request cl (.deleteSegment ds did sid) ⟨srv, clock, tr⟩).1 =
        .error (.kb e) →
      ¬ (e.status_code = Option.some 404 ∧
        asciiLower (pyStr (if ((alookup e.payload "code").getD .none).truthy
          then (alookup e.payload "code").getD .none else .str "")) =
          "not_found") →
      delete_segment cl ds did sid ⟨srv, clock, tr⟩ =
        (.error (.kb e), (request cl (.deleteSegment ds did sid)
          ⟨srv, clock, tr⟩).2)) ∧
    ((match (replace_with_single_segment (scriptClient "http://kb") "d1"
          "doc1" (.str "NEW") Option.none 60 3
          ⟨scriptDelete404, 0, []⟩).1 with
        | .error (.kb e) => e.status_code
        | _ => Option.none) = Option.some 404 ∧
      ((replace_with_single_segment (scriptClient "http://kb") "d1" "doc1"
          (.str "NEW") Option.none 60 3 ⟨scriptDelete404, 0, []⟩).2).trace =
        [.getDocument "d1" "doc1", .getDocument "d1" "doc1",
          .updateByText "d1" "doc1" "NEW" (Option.some "report"),
          .getDocument "d1" "doc1", .listSegments "d1" "doc1",
          .deleteSegment "d1" "doc1" "s1",
          .createSegments "d1" "doc1" "NEW" []]) ∧
    ((match (replace_with_single_segment (scriptClient "http://kb") "d1"
          "doc1" (.str "NEW") Option.none 60 3
          ⟨[notFoundResp], 0, []⟩).1 with
        | .error (.kb e) => e.status_code
        | _ => Option.none) = Option.some 404 ∧
      ((replace_with_single_segment (scriptClient "http://kb") "d1" "doc1"
          (.str "NEW") Option.none 60 3 ⟨[notFoundResp], 0, []⟩).2).trace =
        [.getDocument "d1" "doc1"]) := by
  refine ⟨?_, ?_, ?_, ⟨rfl, rfl⟩, ⟨rfl, rfl⟩⟩
  · intro σ cl srv clock tr ds did sid v srv2 hs
    simp [delete_segment, request, hs]
  · intro σ cl srv clock tr ds did sid e hreq h404 hcode
    rcases hr : request cl (.deleteSegment ds did sid) ⟨srv, clock, tr⟩ with
      ⟨res, st2⟩
    rw [hr] at hreq
    simp only at hreq
    subst hreq
    simp only [delete_segment, hr, h404, hcode, if_pos, if_true]
  · intro σ cl srv clock tr ds did sid e hreq hnot
    rcases hr : request cl (.deleteSegment ds did sid) ⟨srv, clock, tr⟩ with
      ⟨res, st2⟩
    rw [hr] at hreq
    simp only at hreq
    subst hreq
    by_cases h404 : e.status_code = Option.some 404
    · have hcode : asciiLower (pyStr
          (if ((alookup e.payload "code").getD .none).truthy
            then (alookup e.payload "code").getD .none else .str "")) ≠
          "not_found" := fun hc => hnot ⟨h404, hc⟩
      simp only [delete_segment, hr, h404, if_pos, if_neg hcode]
    · simp only [delete_segment, hr, if_neg h404]

/-- Witness for C8: a concrete delete answered 404/`not_found` is
swallowed and the loop state carries on. -/
theorem C8_witness :
    delete_segment (scriptClient "http://kb") "d" "doc" "s1"
        ⟨[notFoundResp], 0, []⟩ =
      (.ok (), ⟨[], 0, [.deleteSegment "d" "doc" "s1"]⟩) :=
  (C8_delete_segment_not_found_leniency.2.1 (List RemoteResult)
    (scriptClient "http://kb") [notFoundResp] 0 [] "d" "doc" "s1"
    ⟨"Dify API error " ++ toString (404 : Nat) ++ " for " ++
        (Req.deleteSegment "d" "doc" "s1").method ++ " " ++
        (Req.deleteSegment "d" "doc" "s1").path ++ ": " ++
        dumpJson (.dict [("code", .str "not_found"),
          ("message", .str "Resource not found.")]),
      Option.some 404,
      [("code", .str "not_found"), ("message", .str "Resource not found.")]⟩
    rfl rfl (by decide)).trans rfl

/-! ### State and error-kind lemmas for the chunk engine -/

theorem request_state {σ : Type} (cl : Client σ) (r : Req) (st : EngSt σ) :
    (request cl r st).2 = ⟨(cl.serve st.srv r).2, st.clock, st.trace ++ [r]⟩ := by
  rcases hs : cl.serve st.srv r with ⟨rr, srv2⟩
  cases rr <;> simp [request, hs]

theorem pyGet_no_kb (v : PyVal) (k : String) (e : KBError) :
    pyGet v k ≠ .error (.kb e) := by
  cases v <;> simp [pyGet]

theorem pyGetD_no_kb (v : PyVal) (k : String) (d : PyVal) (e : KBError) :
    pyGetD v k d ≠ .error (.kb e) := by
  cases v <;> simp [pyGetD]

theorem pyIndex_no_kb (v : PyVal) (k : String) (e : KBError) :
    pyIndex v k ≠ .error (.kb e) := by
  cases v with
  | dict kvs =>
      cases h : alookup kvs k <;> simp [pyIndex, h]
  | _ => simp [pyIndex]

theorem pyIter_no_kb (v : PyVal) (e : KBError) :
    pyIter v ≠ .error (.kb e) := by
  cases v <;> simp [pyIter]

theorem pyContains_no_kb (v : PyVal) (k : String) (e : KBError) :
    pyContains v k ≠ .error (.kb e) := by
  cases v <;> simp [pyContains]

theorem exceptThen_no_kb {α β : Type} (x : Except Failure α)
    (f : α → Except Failure β) (e : KBError)
    (hx : ∀ e', x ≠ .error (.kb e'))
    (hf : ∀ a, f a ≠ .error (.kb e)) :
    exceptThen x f ≠ .error (.kb e) := by
  cases x with
  | error g =>
      intro h
      injection h with h1
      exact hx e (by rw [h1])
  | ok a => exact hf a

theorem segIdsLoop_no_kb (segs : List PyVal) :
    ∀ e : KBError, segIdsLoop segs ≠ .error (.kb e) := by
  induction segs with
  | nil => intro e; simp [segIdsLoop]
  | cons segment rest ih =>
      intro e
      refine exceptThen_no_kb _ _ _
        (fun e' => pyGet_no_kb segment "id" e') (fun s1 => ?_)
      refine exceptThen_no_kb _ _ _ (fun e' => ?_) (fun sid => ?_)
      · by_cases ht : s1.truthy
        · simp [ht]
        · simp only [ht, Bool.false_eq_true, if_false]
          exact pyGet_no_kb segment "segment_id" e'
      · refine exceptThen_no_kb _ _ _ (fun e' => ih e') (fun ids => ?_)
        by_cases ht2 : sid.truthy <;> simp [ht2]

theorem fallbackSegments_no_kb (response : PyVal) (e : KBError) :
    fallbackSegments response ≠ .error (.kb e) := by
  refine exceptThen_no_kb _ _ _
    (fun e' => pyContains_no_kb response "segments" e') (fun has => ?_)
  by_cases hh : has
  · rw [if_pos hh]
    refine exceptThen_no_kb _ _ _
      (fun e' => pyIndex_no_kb response "segments" e') (fun segs => ?_)
    simp
  · rw [if_neg hh]
    simp

theorem parseSegmentsListing_no_kb (response : PyVal) (e : KBError) :
    parseSegmentsListing response ≠ .error (.kb e) := by
  refine exceptThen_no_kb _ _ _
    (fun e' => pyGet_no_kb response "data" e') (fun dataVal => ?_)
  have hrest : ∀ sv : Except Failure PyVal, (∀ e', sv ≠ .error (.kb e')) →
      exceptThen sv (fun segsVal =>
        exceptThen (pyIter segsVal) (fun segs => segIdsLoop segs)) ≠
        .error (.kb e) := by
    intro sv hsv
    refine exceptThen_no_kb _ _ _ hsv (fun segsVal => ?_)
    refine exceptThen_no_kb _ _ _
      (fun e' => pyIter_no_kb segsVal e') (fun segs => segIdsLoop_no_kb segs e)
  cases dataVal with
  | dict kvs =>
      refine hrest _ (fun e' => ?_)
      by_cases hk : kvs.any (fun kv => kv.1 = "segments")
      · simp only [hk, if_true]
        refine exceptThen_no_kb _ _ _
          (fun e'' => pyIndex_no_kb (.dict kvs) "segments" e'') (fun segs => ?_)
        simp
      · simp only [hk, Bool.false_eq_true, if_false]
        exact fallbackSegments_no_kb response e'
  | list xs => refine hrest _ (fun e' => by simp)
  | none => exact hrest _ (fun e' => fallbackSegments_no_kb response e')
  | bool b => exact hrest _ (fun e' => fallbackSegments_no_kb response e')
  | int n => exact hrest _ (fun e' => fallbackSegments_no_kb response e')
  | flt l => exact hrest _ (fun e' => fallbackSegments_no_kb response e')
  | str s => exact hrest _ (fun e' => fallbackSegments_no_kb response e')

theorem list_segments_error_kind {σ : Type} (cl : Client σ)
    (ds did : String) (st : EngSt σ) (e : KBError)
    (h : (list_segments cl ds did st).1 = .error (.kb e)) :
    e.message.data.get? 0 = Option.some 'R' ∨
      e.message.data.get? 1 = Option.some 'i' := by
  rcases hr : request cl (.listSegments ds did) st with ⟨rq, st2⟩
  simp only [list_segments, hr, stepBind] at h
  cases rq with
  | error f =>
      simp only at h
      obtain ⟨e0, he0, hm⟩ := request_error_kind cl _ st st2 f
        (by rw [hr])
      have : f = .kb e := Except.error.inj h
      rw [this] at he0
      rw [Failure.kb.inj he0]
      exact hm
  | ok resp =>
      simp only [liftPure] at h
      exact absurd h (parseSegmentsListing_no_kb resp e)

theorem delete_segment_error_kind {σ : Type} (cl : Client σ)
    (ds did sid : String) (st : EngSt σ) (e : KBError)
    (h : (delete_segment cl ds did sid st).1 = .error (.kb e)) :
    e.message.data.get? 0 = Option.some 'R' ∨
      e.message.data.get? 1 = Option.some 'i' := by
  rcases hr : request cl (.deleteSegment ds did sid) st with ⟨rq, st2⟩
  simp only [delete_segment, hr] at h
  cases rq with
  | ok v => simp only at h; exact Except.noConfusion h
  | error f =>
      obtain ⟨e0, he0, hm⟩ := request_error_kind cl _ st st2 f (by rw [hr])
      cases f with
      | kb exc =>
          have hexc : exc = e0 := Failure.kb.inj he0
          by_cases h404 : exc.status_code = Option.some 404
          · simp only [h404, if_pos, if_true] at h
            by_cases hcode : asciiLower (pyStr
                (if ((alookup exc.payload "code").getD .none).truthy
                  then (alookup exc.payload "code").getD .none
                  else .str "")) = "not_found"
            · rw [if_pos hcode] at h
              exact Except.noConfusion h
            · rw [if_neg hcode] at h
              have h1 : exc = e := Failure.kb.inj (Except.error.inj h)
              rw [← h1, hexc]
              exact hm
          · simp only [h404, if_false] at h
            have h1 : exc = e := Failure.kb.inj (Except.error.inj h)
            rw [← h1, hexc]
            exact hm
      | val m =>
          simp only at h
          exact Failure.noConfusion (Except.error.inj h)
      | crash m =>
          simp only at h
          exact Failure.noConfusion (Except.error.inj h)

theorem deleteSegmentsLoop_error_kind {σ : Type} (cl : Client σ)
    (ds did : String) (ids : List String) :
    ∀ (st : EngSt σ) (e : KBError),
      (deleteSegmentsLoop cl ds did ids st).1 = .error (.kb e) →
      e.message.data.get? 0 = Option.some 'R' ∨
        e.message.data.get? 1 = Option.some 'i' := by
  induction ids with
  | nil =>
      intro st e h
      simp only [deleteSegmentsLoop] at h
      exact Except.noConfusion h
  | cons sid rest ih =>
      intro st e h
      simp only [deleteSegmentsLoop] at h
      rcases hd : delete_segment cl ds did sid st with ⟨rd, st2⟩
      rw [hd] at h
      cases rd with
      | error f =>
          simp only [stepBind] at h
          have : f = .kb e := Except.error.inj h
          exact delete_segment_error_kind cl ds did sid st e
            (by rw [hd, this])
      | ok u =>
          simp only [stepBind] at h
          exact ih st2 e h

theorem update_document_text_error_kind {σ : Type} (cl : Client σ)
    (ds did txt : String) (st : EngSt σ) (e : KBError)
    (h : (update_document_text cl ds did txt st).1 = .error (.kb e)) :
    e.message.data.get? 0 = Option.some 'R' ∨
      e.message.data.get? 1 = Option.some 'i' := by
  rcases hr : request cl (.getDocument ds did) st with ⟨r1, st2⟩
  simp only [update_document_text, hr] at h
  cases r1 with
  | error f =>
      cases f with
      | kb exc =>
          simp only [stepBind] at h
          rcases hr2 : request cl (.updateByText ds did txt
              (Option.some did)) st2 with ⟨r2, st3⟩
          rw [hr2] at h
          cases r2 with
          | error f2 =>
              simp only at h
              obtain ⟨e0, he0, hm⟩ := request_error_kind cl _ st2 st3 f2
                (by rw [hr2])
              have : f2 = .kb e := Except.error.inj h
              rw [this] at he0
              rw [Failure.kb.inj he0]
              exact hm
          | ok v => simp only at h; exact Except.noConfusion h
      | val m => simp only at h; exact Failure.noConfusion (Except.error.inj h)
      | crash m =>
          simp only at h; exact Failure.noConfusion (Except.error.inj h)
  | ok doc =>
      simp only [stepBind] at h
      rcases hr2 : request cl (.updateByText ds did txt
          (Option.some (match (match doc with
            | .dict kvs =>
                match alookup kvs "data" with
                | Option.some (.dict dkvs) => Option.some (PyVal.dict dkvs)
                | _ => Option.some (PyVal.dict kvs)
            | _ => Option.none) with
            | Option.some (.dict rkvs) =>
                match alookup rkvs "name" with
                | Option.some (.str candidate) =>
                    if pyStrip candidate ≠ "" then candidate else did
                | _ => did
            | _ => did))) st2 with ⟨r2, st3⟩
      rw [hr2] at h
      cases r2 with
      | error f2 =>
          simp only at h
          obtain ⟨e0, he0, hm⟩ := request_error_kind cl _ st2 st3 f2
            (by rw [hr2])
          have : f2 = .kb e := Except.error.inj h
          rw [this] at he0
          rw [Failure.kb.inj he0]
          exact hm
      | ok v => simp only at h; exact Except.noConfusion h

theorem update_document_text_trace {σ : Type} (cl : Client σ)
    (ds did txt : String) (st : EngSt σ) (res : Except Failure Unit)
    (st' : EngSt σ)
    (h : update_document_text cl ds did txt st = (res, st')) :
    ∃ tr', st'.trace = st.trace ++ tr' ∧
      ∀ r ∈ tr', isSegmentMutationReq r = false := by
  have hupd : ∀ (name_value : String) (st0 : EngSt σ) r0 s0,
      (stepBind (request cl (.updateByText ds did txt
        (Option.some name_value)) st0)
        (fun _ st => ((.ok () : Except Failure Unit), st))) = (r0, s0) →
      s0.trace = st0.trace ++ [.updateByText ds did txt
        (Option.some name_value)] := by
    intro name_value st0 r0 s0 h0
    rcases hr2 : request cl (.updateByText ds did txt
        (Option.some name_value)) st0 with ⟨r2, st3⟩
    have hst3 : st3.trace = st0.trace ++ [.updateByText ds did txt
        (Option.some name_value)] := by
      have h2 := request_state cl (.updateByText ds did txt
        (Option.some name_value)) st0
      rw [hr2] at h2
      exact congrArg EngSt.trace h2
    rw [hr2] at h0
    cases r2 with
    | error f2 =>
        simp only [stepBind] at h0
        have h3 : s0 = st3 := (congrArg Prod.snd h0).symm
        rw [h3]
        exact hst3
    | ok v =>
        simp only [stepBind] at h0
        have h3 : s0 = st3 := (congrArg Prod.snd h0).symm
        rw [h3]
        exact hst3
  rcases hr : request cl (.getDocument ds did) st with ⟨r1, st2⟩
  have hst2 : st2.trace = st.trace ++ [.getDocument ds did] := by
    have h2 := request_state cl (.getDocument ds did) st
    rw [hr] at h2
    exact congrArg EngSt.trace h2
  simp only [update_document_text, hr] at h
  cases r1 with
  | error f =>
      cases f with
      | kb exc =>
          have hthis := hupd did st2 res st' h
          refine ⟨[.getDocument ds did, .updateByText ds did txt
            (Option.some did)], ?_, ?_⟩
          · rw [hthis, hst2, List.append_assoc]
            rfl
          · intro r hrr
            rcases List.mem_cons.mp hrr with rfl | hrr
            · rfl
            · rcases List.mem_cons.mp hrr with rfl | hrr
              · rfl
              · exact absurd hrr (List.not_mem_nil r)
      | val m =>
          have h' : ((.error (.val m) : Except Failure Unit), st2) =
              (res, st') := h
          have hs : st' = st2 := (congrArg Prod.snd h').symm
          refine ⟨[.getDocument ds did], ?_, ?_⟩
          · rw [hs, hst2]
          · intro r hrr
            rcases List.mem_cons.mp hrr with rfl | hrr
            · rfl
            · exact absurd hrr (List.not_mem_nil r)
      | crash m =>
          have h' : ((.error (.crash m) : Except Failure Unit), st2) =
              (res, st') := h
          have hs : st' = st2 := (congrArg Prod.snd h').symm
          refine ⟨[.getDocument ds did], ?_, ?_⟩
          · rw [hs, hst2]
          · intro r hrr
            rcases List.mem_cons.mp hrr with rfl | hrr
            · rfl
            · exact absurd hrr (List.not_mem_nil r)
  | ok doc =>
      obtain ⟨nv, h'⟩ : ∃ nv, stepBind (request cl
          (.updateByText ds did txt (Option.some nv)) st2)
          (fun _ st => ((.ok () : Except Failure Unit), st)) = (res, st') :=
        ⟨_, h⟩
      have hthis := hupd nv st2 res st' h'
      refine ⟨[.getDocument ds did, .updateByText ds did txt
        (Option.some nv)], ?_, ?_⟩
      · rw [hthis, hst2, List.append_assoc]
        rfl
      · intro r hrr
        rcases List.mem_cons.mp hrr with rfl | hrr
        · rfl
        · rcases List.mem_cons.mp hrr with rfl | hrr
          · rfl
          · exact absurd hrr (List.not_mem_nil r)

theorem waitLoop_trace {σ : Type} (cl : Client σ) (fuel : Nat)
    (ds did : String) (deadline p : Nat) :
    ∀ (st : EngSt σ) (res : Except Failure PyVal) (st' : EngSt σ),
      waitLoop cl fuel ds did deadline p st = (res, st') →
      ∃ tr', st'.trace = st.trace ++ tr' ∧
        ∀ r ∈ tr', isSegmentMutationReq r = false := by
  induction fuel with
  | zero =>
      intro st res st' h
      simp only [waitLoop] at h
      have hs : st' = st := (congrArg Prod.snd h).symm
      exact ⟨[], by simp [hs], by simp⟩
  | succ n ih =>
      intro st res st' h
      simp only [waitLoop] at h
      rcases hr : request cl (.getDocument ds did) st with ⟨r1, st2⟩
      have hst2 : st2.trace = st.trace ++ [.getDocument ds did] := by
        have h2 := request_state cl (.getDocument ds did) st
        rw [hr] at h2
        exact congrArg EngSt.trace h2
      rw [hr] at h
      have hsingle : ∀ r ∈ [Req.getDocument ds did],
          isSegmentMutationReq r = false := by
        intro r hrr
        rcases List.mem_cons.mp hrr with rfl | hrr
        · rfl
        · exact absurd hrr (List.not_mem_nil r)
      cases r1 with
      | error f =>
          simp only [stepBind] at h
          have hs : st' = st2 := (congrArg Prod.snd h).symm
          exact ⟨[.getDocument ds did], by rw [hs, hst2], hsingle⟩
      | ok document =>
          simp only [stepBind, liftPure] at h
          cases hl : lastStatusOf document with
          | error f =>
              rw [hl] at h
              simp only [stepBind] at h
              have hs : st' = st2 := (congrArg Prod.snd h).symm
              exact ⟨[.getDocument ds did], by rw [hs, hst2], hsingle⟩
          | ok last =>
              rw [hl] at h
              simp only [stepBind] at h
              by_cases hc : last = Option.some "completed"
              · rw [if_pos hc] at h
                have hs : st' = st2 := (congrArg Prod.snd h).symm
                exact ⟨[.getDocument ds did], by rw [hs, hst2], hsingle⟩
              · rw [if_neg hc] at h
                by_cases he : last = Option.some "error" ∨
                    last = Option.some "failed"
                · rw [if_pos he] at h
                  have hs : st' = st2 := (congrArg Prod.snd h).symm
                  exact ⟨[.getDocument ds did], by rw [hs, hst2], hsingle⟩
                · rw [if_neg he] at h
                  by_cases hd : st2.clock ≥ deadline
                  · rw [if_pos hd] at h
                    have hs : st' = st2 := (congrArg Prod.snd h).symm
                    exact ⟨[.getDocument ds did], by rw [hs, hst2], hsingle⟩
                  · rw [if_neg hd] at h
                    obtain ⟨tr', htr, hall⟩ := ih _ _ _ h
                    refine ⟨[Req.getDocument ds did] ++ tr', ?_, ?_⟩
                    · simp only at htr
                      rw [htr, hst2, List.append_assoc]
                    · intro r hrr
                      rcases List.mem_append.mp hrr with hrr | hrr
                      · exact hsingle r hrr
                      · exact hall r hrr

theorem indexingFailedMsg_marks (did : String) (ls : Option String) :
    (indexingFailedMsg did ls).data.get? 0 = Option.some 'D' ∧
    (indexingFailedMsg did ls).data.get? 1 = Option.some 'o' := by
  have h0 : ("Document " : String).data.length = 9 := by decide
  have h1 : ("Document " ++ did).data.length ≥ 9 := by
    rw [append_data_length]; omega
  have h2 : ("Document " ++ did ++
      " indexing failed with status ").data.length ≥ 9 := by
    rw [append_data_length]; omega
  have h3 : ("Document " ++ did ++ " indexing failed with status " ++
      pyReprOptStr ls).data.length ≥ 9 := by
    rw [append_data_length]; omega
  unfold indexingFailedMsg
  constructor
  · rw [append_data_get _ _ 0 (by omega), append_data_get _ _ 0 (by omega),
      append_data_get _ _ 0 (by omega), append_data_get _ _ 0 (by decide)]
    rfl
  · rw [append_data_get _ _ 1 (by omega), append_data_get _ _ 1 (by omega),
      append_data_get _ _ 1 (by omega), append_data_get _ _ 1 (by decide)]
    rfl

theorem remote_marker_ne_indexingFailedMsg (e : KBError) (did : String)
    (ls : Option String)
    (hm : e.message.data.get? 0 = Option.some 'R' ∨
      e.message.data.get? 1 = Option.some 'i')
    (heq : e.message = indexingFailedMsg did ls) : False := by
  obtain ⟨hD, ho⟩ := indexingFailedMsg_marks did ls
  rcases hm with hm | hm
  · rw [heq, hD] at hm
    exact absurd hm (by decide)
  · rw [heq, ho] at hm
    exact absurd hm (by decide)

/-! ### C2: an observed `error`/`failed` status aborts before any segment
mutation -/

/-- C2: (i) whenever a status poll observes `error` or `failed`, the
polling loop raises the IndexingFailed `KnowledgeBaseError` naming that
status immediately, having issued only the poll request; (ii) whenever a
run of `replace_with_single_segment` fails with that IndexingFailed
error, its trace contains no segment deletion and no segment creation —
the failure happened before any segment mutation. -/
theorem C2_indexing_failure_before_mutation :
    (∀ (σ : Type) (cl : Client σ) (fuel : Nat) (ds did : String)
        (deadline p : Nat) (st : EngSt σ) (document : PyVal) (srv2 : σ)
        (ls : String),
      cl.serve st.srv (.getDocument ds did) = (.ok document, srv2) →
      lastStatusOf document = .ok (Option.some ls) →
      (ls = "error" ∨ ls = "failed") →
      waitLoop cl (fuel + 1) ds did deadline p st =
        (.error (.kb ⟨indexingFailedMsg did (Option.some ls), Option.none,
          []⟩), ⟨srv2, st.clock, st.trace ++ [.getDocument ds did]⟩)) ∧
    (∀ (σ : Type) (cl : Client σ) (ds did : String) (content : PyVal)
        (kws : Option (List String)) (T p : Nat) (srv : σ) (clock : Nat)
        (e : KBError) (st' : EngSt σ) (ls : String),
      replace_with_single_segment cl ds did content kws T p
          ⟨srv, clock, []⟩ = (.error (.kb e), st') →
      (ls = "error" ∨ ls = "failed") →
      e.message = indexingFailedMsg did (Option.some ls) →
      st'.trace.filter isSegmentMutationReq = []) := by
  constructor
  · intro σ cl fuel ds did deadline p st document srv2 ls hserve hlast hls
    have hreq : request cl (.getDocument ds did) st = (.ok document,
        ⟨srv2, st.clock, st.trace ++ [.getDocument ds did]⟩) := by
      simp [request, hserve]
    simp only [waitLoop, hreq, stepBind, liftPure, hlast]
    rcases hls with rfl | rfl
    · rw [if_neg (by decide), if_pos (by decide)]
    · rw [if_neg (by decide), if_pos (by decide)]
  · intro σ cl ds did content kws T p srv clock e st' ls h hls heq
    simp only [replace_with_single_segment] at h
    rcases h1 : wait_for_completed cl ds did T p ⟨srv, clock, []⟩ with
      ⟨r1, st1⟩
    rw [h1] at h
    obtain ⟨t1, ht1, ha1⟩ := waitLoop_trace cl (T + 1) ds did
      ((⟨srv, clock, []⟩ : EngSt σ).clock + T) p ⟨srv, clock, []⟩ r1 st1
      (by exact h1)
    cases r1 with
    | error f1 =>
        simp only [stepBind] at h
        have hs : st' = st1 := (congrArg Prod.snd h).symm
        rw [hs, ht1]
        simp only [List.nil_append]
        exact List.filter_eq_nil.mpr (fun r hr => by simp [ha1 r hr])
    | ok d1 =>
        simp only [stepBind] at h
        rcases h2 : update_document_text cl ds did (normalize_text content)
          st1 with ⟨r2, st2⟩
        rw [h2] at h
        obtain ⟨t2, ht2, ha2⟩ := update_document_text_trace cl ds did _ st1
          r2 st2 h2
        cases r2 with
        | error f2 =>
            simp only [stepBind] at h
            have hf : f2 = .kb e := Except.error.inj (congrArg Prod.fst h)
            have hm := update_document_text_error_kind cl ds did
              (normalize_text content) st1 e (by rw [h2, hf])
            exact (remote_marker_ne_indexingFailedMsg e did
              (Option.some ls) hm heq).elim
        | ok u2 =>
            simp only [stepBind] at h
            rcases h3 : wait_for_completed cl ds did T p st2 with ⟨r3, st3⟩
            rw [h3] at h
            obtain ⟨t3, ht3, ha3⟩ := waitLoop_trace cl (T + 1) ds did
              (st2.clock + T) p st2 r3 st3 (by exact h3)
            cases r3 with
            | error f3 =>
                simp only [stepBind] at h
                have hs : st' = st3 := (congrArg Prod.snd h).symm
                rw [hs, ht3, ht2, ht1]
                simp only [List.nil_append, List.filter_append]
                rw [List.filter_eq_nil.mpr (fun r hr => by simp [ha1 r hr]),
                  List.filter_eq_nil.mpr (fun r hr => by simp [ha2 r hr]),
                  List.filter_eq_nil.mpr (fun r hr => by simp [ha3 r hr])]
                rfl
            | ok d3 =>
                simp only [stepBind] at h
                rcases h4 : list_segments cl ds did st3 with ⟨r4, st4⟩
                rw [h4] at h
                cases r4 with
                | error f4 =>
                    simp only [stepBind] at h
                    have hf : f4 = .kb e :=
                      Except.error.inj (congrArg Prod.fst h)
                    have hm := list_segments_error_kind cl ds did st3 e
                      (by rw [h4, hf])
                    exact (remote_marker_ne_indexingFailedMsg e did
                      (Option.some ls) hm heq).elim
                | ok ids =>
                    simp only [stepBind] at h
                    rcases h5 : deleteSegmentsLoop cl ds did ids st4 with
                      ⟨r5, st5⟩
                    rw [h5] at h
                    cases r5 with
                    | error f5 =>
                        simp only [stepBind] at h
                        have hf : f5 = .kb e :=
                          Except.error.inj (congrArg Prod.fst h)
                        have hm := deleteSegmentsLoop_error_kind cl ds did
                          ids st4 e (by rw [h5, hf])
                        exact (remote_marker_ne_indexingFailedMsg e did
                          (Option.some ls) hm heq).elim
                    | ok u5 =>
                        simp only [stepBind] at h
                        rcases h6 : request cl (.createSegments ds did
                          (normalize_text content) (kws.getD [])) st5 with
                          ⟨r6, st6⟩
                        rw [h6] at h
                        cases r6 with
                        | error f6 =>
                            simp only [stepBind] at h
                            have hf : f6 = .kb e :=
                              Except.error.inj (congrArg Prod.fst h)
                            obtain ⟨e0, he0, hm⟩ := request_error_kind cl _
                              st5 st6 f6 (by rw [h6])
                            rw [hf] at he0
                            rw [Failure.kb.inj he0] at heq
                            exact (remote_marker_ne_indexingFailedMsg e0 did
                              (Option.some ls) hm heq).elim
                        | ok v6 =>
                            simp only [stepBind] at h
                            exact Except.noConfusion (congrArg Prod.fst h)

/-- Witness for C2: a server reporting status `error` on the first poll
makes the loop raise the IndexingFailed error at once, and the failed
replacement run has no segment mutation in its trace. -/
theorem C2_witness :
    waitLoop kbClient 61 "d1" "doc1" 60 3 ⟨srvErr, 0, []⟩ =
      (.error (.kb ⟨indexingFailedMsg "doc1" (Option.some "error"),
        Option.none, []⟩),
        ⟨⟨"d1", "doc1", "report", "old", [], [⟨"s1", "a", []⟩],
          ["completed"], [⟨"r1", "x", []⟩], 0⟩, 0,
          [.getDocument "d1" "doc1"]⟩) ∧
    (EngSt.trace
        (⟨⟨"d1", "doc1", "report", "old", [], [⟨"s1", "a", []⟩],
          ["completed"], [⟨"r1", "x", []⟩], 0⟩, 0,
          [.getDocument "d1" "doc1"]⟩ : EngSt Server)).filter
      isSegmentMutationReq = [] :=
  ⟨C2_indexing_failure_before_mutation.1 Server kbClient 60 "d1" "doc1" 60 3
      ⟨srvErr, 0, []⟩ (docJson srvErr "error") _ "error" rfl rfl
      (Or.inl rfl),
    C2_indexing_failure_before_mutation.2 Server kbClient "d1" "doc1"
      (.str "NEW") Option.none 60 3 srvErr 0
      ⟨indexingFailedMsg "doc1" (Option.some "error"), Option.none, []⟩
      ⟨⟨"d1", "doc1", "report", "old", [], [⟨"s1", "a", []⟩],
        ["completed"], [⟨"r1", "x", []⟩], 0⟩, 0, [.getDocument "d1" "doc1"]⟩
      "error" rfl (Or.inl rfl) rfl⟩

/-! ### The reference server under the replacement engine (C1) -/

theorem kb_getDocument_pos (s : Server) (c : Nat) (tr : List Req)
    (ds did : String) (hds : ds = s.ds) (hdid : did = s.doc) :
    request kbClient (.getDocument ds did) ⟨s, c, tr⟩ =
      (.ok (docJson s (s.statuses.headD "completed")),
        ⟨{ s with statuses := s.statuses.tail }, c,
          tr ++ [.getDocument ds did]⟩) := by
  subst hds hdid
  simp [request, kbClient, serveKB]

theorem kb_getDocument_neg (s : Server) (c : Nat) (tr : List Req)
    (ds did : String) (hmis : ¬ (ds = s.ds ∧ did = s.doc)) :
    (request kbClient (.getDocument ds did) ⟨s, c, tr⟩).1.isOk = false ∧
    (request kbClient (.getDocument ds did) ⟨s, c, tr⟩).2 =
      ⟨s, c, tr ++ [.getDocument ds did]⟩ := by
  simp [request, kbClient, serveKB, hmis, notFoundResp, Except.isOk,
    Except.toBool]

theorem lastStatusOf_docJson (s : Server) (status : String) :
    lastStatusOf (docJson s status) =
      .ok (if status = "" then Option.none else Option.some status) := by
  by_cases h : status = "" <;>
    simp [lastStatusOf, indexingStatusOf, docJson, pyGet, pyGetD, alookup,
      pyStr, PyVal.truthy, h]

theorem kb_waitLoop_srv (fuel : Nat) (ds did : String) (dl p : Nat) :
    ∀ (s : Server) (c : Nat) (tr : List Req)
      (res : Except Failure PyVal) (st' : EngSt Server),
      waitLoop kbClient fuel ds did dl p ⟨s, c, tr⟩ = (res, st') →
      ∃ σs cc trt, st' = ⟨{ s with statuses := σs }, cc, trt⟩ := by
  induction fuel with
  | zero =>
      intro s c tr res st' h
      simp only [waitLoop] at h
      exact ⟨s.statuses, c, tr, (congrArg Prod.snd h).symm⟩
  | succ n ih =>
      intro s c tr res st' h
      simp only [waitLoop] at h
      by_cases hm : ds = s.ds ∧ did = s.doc
      · rw [kb_getDocument_pos s c tr ds did hm.1 hm.2] at h
        simp only [stepBind, liftPure, lastStatusOf_docJson] at h
        by_cases h0 : s.statuses.headD "completed" = ""
        · rw [if_pos h0] at h
          rw [if_neg (fun hcontra => Option.noConfusion hcontra)] at h
          rw [if_neg (fun hcontra => hcontra.elim
            (fun hx => Option.noConfusion hx)
            (fun hx => Option.noConfusion hx))] at h
          by_cases hd : c ≥ dl
          · rw [if_pos hd] at h
            exact ⟨s.statuses.tail, c, tr ++ [.getDocument ds did],
              (congrArg Prod.snd h).symm⟩
          · rw [if_neg hd] at h
            obtain ⟨σs, cc, trt, hst⟩ := ih _ _ _ _ _ h
            exact ⟨σs, cc, trt, hst⟩
        · rw [if_neg h0] at h
          by_cases hc : s.statuses.headD "completed" = "completed"
          · rw [if_pos (by rw [hc])] at h
            exact ⟨s.statuses.tail, c, tr ++ [.getDocument ds did],
              (congrArg Prod.snd h).symm⟩
          · rw [if_neg (fun hcontra => hc (Option.some.inj hcontra))] at h
            by_cases he : s.statuses.headD "completed" = "error" ∨
                s.statuses.headD "completed" = "failed"
            · rw [if_pos (he.elim
                (fun hx => Or.inl (by rw [hx]))
                (fun hx => Or.inr (by rw [hx])))] at h
              exact ⟨s.statuses.tail, c, tr ++ [.getDocument ds did],
                (congrArg Prod.snd h).symm⟩
            · rw [if_neg (fun hcontra => he (hcontra.elim
                (fun hx => Or.inl (Option.some.inj hx))
                (fun hx => Or.inr (Option.some.inj hx))))] at h
              by_cases hd : c ≥ dl
              · rw [if_pos hd] at h
                exact ⟨s.statuses.tail, c, tr ++ [.getDocument ds did],
                  (congrArg Prod.snd h).symm⟩
              · rw [if_neg hd] at h
                obtain ⟨σs, cc, trt, hst⟩ := ih _ _ _ _ _ h
                exact ⟨σs, cc, trt, hst⟩
      · obtain ⟨hko, hks⟩ := kb_getDocument_neg s c tr ds did hm
        rcases hq : request kbClient (.getDocument ds did) ⟨s, c, tr⟩ with
          ⟨rq, st2⟩
        rw [hq] at h
        cases rq with
        | ok v =>
            rw [hq] at hko
            exact Bool.noConfusion hko
        | error f =>
            simp only [stepBind] at h
            rw [hq] at hks
            exact ⟨s.statuses, c, tr ++ [.getDocument ds did],
              (congrArg Prod.snd h).symm.trans hks⟩

theorem kb_update_document_text (s : Server) (c : Nat) (tr : List Req)
    (txt ds did : String) (hds : ds = s.ds) (hdid : did = s.doc) :
    ∃ nv, update_document_text kbClient ds did txt ⟨s, c, tr⟩ =
      (.ok (), ⟨{ s with
          text := txt
          name := nv
          statuses := s.reindexStatuses
          segs := s.reindexSegs }, c,
        tr ++ [.getDocument ds did,
          .updateByText ds did txt (Option.some nv)]⟩) := by
  subst hds hdid
  refine ⟨if pyStrip s.name ≠ "" then s.name else s.doc, ?_⟩
  rw [update_document_text,
    kb_getDocument_pos s c tr s.ds s.doc rfl rfl]
  simp [request, kbClient, serveKB, docJson, alookup, stepBind]

theorem segIdsLoop_segJson (segs : List Seg)
    (h : ∀ sg ∈ segs, sg.id ≠ "") :
    segIdsLoop (segs.map segJson) = .ok (segs.map (fun sg => sg.id)) := by
  induction segs with
  | nil => rfl
  | cons sg rest ih =>
      have hid : sg.id ≠ "" := h sg (List.mem_cons_self sg rest)
      have hrest : ∀ sg ∈ rest, sg.id ≠ "" :=
        fun x hx => h x (List.mem_cons_of_mem sg hx)
      simp [segIdsLoop, segJson, pyGet, alookup, exceptThen, PyVal.truthy,
        hid, pyStr, ih hrest]

theorem kb_list_segments (s : Server) (c : Nat) (tr : List Req)
    (ds did : String) (hds : ds = s.ds) (hdid : did = s.doc)
    (hseg : ∀ sg ∈ s.segs, sg.id ≠ "") :
    list_segments kbClient ds did ⟨s, c, tr⟩ =
      (.ok (s.segs.map (fun sg => sg.id)),
        ⟨s, c, tr ++ [.listSegments ds did]⟩) := by
  subst hds hdid
  have hreq : request kbClient (.listSegments s.ds s.doc) ⟨s, c, tr⟩ =
      (.ok (.dict [("data", .dict
        [("segments", .list (s.segs.map segJson))])]),
        ⟨s, c, tr ++ [.listSegments s.ds s.doc]⟩) := by
    simp [request, kbClient, serveKB]
  rw [list_segments, hreq]
  simp only [stepBind, liftPure]
  rw [show parseSegmentsListing (.dict [("data", .dict
      [("segments", .list (s.segs.map segJson))])]) =
      segIdsLoop (s.segs.map segJson) from ?_,
    segIdsLoop_segJson s.segs hseg]
  cases hs : s.segs.map segJson with
  | nil => simp [parseSegmentsListing, pyGet, alookup, pyIndex, pyIter,
      PyVal.truthy, exceptThen, hs, segIdsLoop]
  | cons a l => simp [parseSegmentsListing, pyGet, alookup, pyIndex, pyIter,
      PyVal.truthy, exceptThen, hs]

theorem kb_delete_segment_step (s : Server) (c : Nat) (tr : List Req)
    (ds did sid : String) (hds : ds = s.ds) (hdid : did = s.doc) :
    delete_segment kbClient ds did sid ⟨s, c, tr⟩ =
      (.ok (), ⟨{ s with segs := s.segs.filter (fun sg => sg.id ≠ sid) }, c,
        tr ++ [.deleteSegment ds did sid]⟩) := by
  subst hds hdid
  by_cases hp : s.segs.any (fun sg => sg.id = sid)
  · have hreq : request kbClient (.deleteSegment s.ds s.doc sid)
        ⟨s, c, tr⟩ = (.ok (.dict []),
        ⟨{ s with segs := s.segs.filter (fun sg => sg.id ≠ sid) }, c,
          tr ++ [.deleteSegment s.ds s.doc sid]⟩) := by
      simp [request, kbClient, serveKB, hp]
    simp [delete_segment, hreq]
  · have hall : ∀ sg ∈ s.segs, sg.id ≠ sid := by
      intro sg hsg hcontra
      exact hp (List.any_eq_true.mpr ⟨sg, hsg, by simp [hcontra]⟩)
    have hfilter : s.segs.filter (fun sg => sg.id ≠ sid) = s.segs := by
      refine List.filter_eq_self.mpr ?_
      intro sg hsg
      simp [hall sg hsg]
    have hreq : request kbClient (.deleteSegment s.ds s.doc sid)
        ⟨s, c, tr⟩ = (.error (.kb
          ⟨"Dify API error " ++ toString 404 ++ " for " ++ "DELETE" ++ " " ++
            ("/datasets/" ++ s.ds ++ "/documents/" ++ s.doc ++
              "/segments/" ++ sid) ++ ": " ++
            dumpJson (.dict [("code", .str "not_found"),
              ("message", .str "Resource not found.")]),
          Option.some 404,
          [("code", .str "not_found"),
            ("message", .str "Resource not found.")]⟩),
        ⟨s, c, tr ++ [.deleteSegment s.ds s.doc sid]⟩) := by
      simp [request, kbClient, serveKB, hp, notFoundResp, Req.method,
        Req.path]
    rw [delete_segment, hreq]
    rw [hfilter]
    simp [alookup, PyVal.truthy, pyStr, asciiLower]

theorem kb_deleteSegmentsLoop (ids : List String) :
    ∀ (s : Server) (c : Nat) (tr : List Req) (ds did : String),
      ds = s.ds → did = s.doc →
      deleteSegmentsLoop kbClient ds did ids ⟨s, c, tr⟩ =
        (.ok (), ⟨{ s with
            segs := s.segs.filter (fun sg => !(ids.contains sg.id)) }, c,
          tr ++ ids.map (fun sid => Req.deleteSegment ds did sid)⟩) := by
  induction ids with
  | nil =>
      intro s c tr ds did hds hdid
      simp only [deleteSegmentsLoop]
      have : s.segs.filter (fun sg => !(([] : List String).contains sg.id)) =
          s.segs := by
        refine List.filter_eq_self.mpr ?_
        intro sg hsg
        rfl
      rw [this]
      simp
  | cons sid rest ih =>
      intro s c tr ds did hds hdid
      simp only [deleteSegmentsLoop]
      rw [kb_delete_segment_step s c tr ds did sid hds hdid]
      simp only [stepBind]
      rw [ih { s with segs := s.segs.filter (fun sg => sg.id ≠ sid) } c
        (tr ++ [Req.deleteSegment ds did sid]) ds did hds hdid]
      have hsegs : (s.segs.filter (fun sg => sg.id ≠ sid)).filter
          (fun sg => !(rest.contains sg.id)) =
          s.segs.filter (fun sg => !((sid :: rest).contains sg.id)) := by
        rw [List.filter_filter]
        refine List.filter_congr ?_
        intro sg hsg
        by_cases h1 : sg.id = sid
        · simp [h1, List.contains_cons]
        · simp [h1, List.contains_cons]
      rw [hsegs, List.append_assoc]
      rfl

theorem kb_createSegments_request (s : Server) (c : Nat) (tr : List Req)
    (ds did content : String) (kws : List String)
    (hds : ds = s.ds) (hdid : did = s.doc) :
    request kbClient (.createSegments ds did content kws) ⟨s, c, tr⟩ =
      (.ok (.dict [("data", .list
        [segJson ⟨"seg" ++ toString s.nextId, content, kws⟩])]),
        ⟨{ s with
          segs := s.segs ++ [⟨"seg" ++ toString s.nextId, content, kws⟩]
          nextId := s.nextId + 1 }, c,
          tr ++ [.createSegments ds did content kws]⟩) := by
  subst hds hdid
  simp [request, kbClient, serveKB]

/-- C1: for every content and keyword list, if `replace_with_single_segment`
(the operation behind `convertToSingleChunk`) returns successfully against
the reference server, the document afterwards holds exactly one segment
whose content is the (normalized) supplied content with the supplied
keywords attached, exactly one segment-creation request was issued (for
that content and those keywords), and a deletion request was issued for
every segment id the post-reindex document listed. -/
theorem C1_replace_single_segment_invariant (s : Server)
    (content : PyVal) (kws : Option (List String)) (T p c0 : Nat)
    (out : PyVal) (st' : EngSt Server)
    (hids : ∀ sg ∈ s.reindexSegs, sg.id ≠ "")
    (h : replace_with_single_segment kbClient s.ds s.doc content kws T p
      ⟨s, c0, []⟩ = (.ok out, st')) :
    (∃ sid, st'.srv.segs =
      [⟨sid, normalize_text content, kws.getD []⟩]) ∧
    st'.trace.filter isCreateSegmentsReq =
      [.createSegments s.ds s.doc (normalize_text content)
        (kws.getD [])] ∧
    ∀ sg ∈ s.reindexSegs,
      Req.deleteSegment s.ds s.doc sg.id ∈ st'.trace := by
  simp only [replace_with_single_segment] at h
  rcases h1 : wait_for_completed kbClient s.ds s.doc T p ⟨s, c0, []⟩ with
    ⟨r1, st1⟩
  rw [h1] at h
  cases r1 with
  | error f =>
      simp only [stepBind] at h
      exact Except.noConfusion (congrArg Prod.fst h)
  | ok d1 =>
      simp only [stepBind] at h
      obtain ⟨σ1, c1, t1, rfl⟩ :=
        kb_waitLoop_srv (T + 1) s.ds s.doc (c0 + T) p s c0 [] (.ok d1)
          st1 h1
      obtain ⟨t1m, ht1, ha1⟩ :=
        waitLoop_trace kbClient (T + 1) s.ds s.doc (c0 + T) p ⟨s, c0, []⟩
          (.ok d1) _ h1
      have ht1e : t1 = t1m := by simpa using ht1
      rcases h2 : update_document_text kbClient s.ds s.doc
          (normalize_text content) ⟨{ s with statuses := σ1 }, c1, t1⟩ with
        ⟨r2, st2⟩
      rw [h2] at h
      obtain ⟨nv, hupd⟩ := kb_update_document_text
        { s with statuses := σ1 } c1 t1 (normalize_text content)
        s.ds s.doc rfl rfl
      have hcomb2 := hupd.symm.trans h2
      obtain ⟨s2, c2, t2⟩ := st2
      rw [Prod.mk.injEq, EngSt.mk.injEq] at hcomb2
      obtain ⟨hr2, hs2, hc2, ht2⟩ := hcomb2
      subst hr2
      simp only [stepBind] at h
      have g2ds := congrArg Server.ds hs2
      have g2doc := congrArg Server.doc hs2
      have g2segs := congrArg Server.segs hs2
      have hds2 : s.ds = s2.ds := g2ds
      have hdoc2 : s.doc = s2.doc := g2doc
      have hsegs2 : s.reindexSegs = s2.segs := g2segs
      rcases h3 : wait_for_completed kbClient s.ds s.doc T p
          ⟨s2, c2, t2⟩ with ⟨r3, st3⟩
      rw [h3] at h
      cases r3 with
      | error f =>
          simp only [stepBind] at h
          exact Except.noConfusion (congrArg Prod.fst h)
      | ok d3 =>
          simp only [stepBind] at h
          obtain ⟨σ3, c3, t3, rfl⟩ :=
            kb_waitLoop_srv (T + 1) s.ds s.doc (c2 + T) p s2 c2 t2
              (.ok d3) st3 h3
          obtain ⟨t3m, ht3, ha3⟩ :=
            waitLoop_trace kbClient (T + 1) s.ds s.doc (c2 + T) p
              ⟨s2, c2, t2⟩ (.ok d3) _ h3
          have ht3e : t3 = t2 ++ t3m := ht3
          have hlist := kb_list_segments { s2 with statuses := σ3 } c3 t3
            s.ds s.doc hds2 hdoc2
            (by
              show ∀ sg ∈ s2.segs, sg.id ≠ ""
              rw [← hsegs2]
              exact hids)
          rcases h4 : list_segments kbClient s.ds s.doc
              ⟨{ s2 with statuses := σ3 }, c3, t3⟩ with ⟨r4, st4⟩
          rw [h4] at h
          have hcomb4 := hlist.symm.trans h4
          obtain ⟨s4, c4, t4⟩ := st4
          rw [Prod.mk.injEq, EngSt.mk.injEq] at hcomb4
          obtain ⟨hr4, hs4, hc4, ht4⟩ := hcomb4
          subst hr4
          simp only [stepBind] at h
          have g4ds := congrArg Server.ds hs4
          have g4doc := congrArg Server.doc hs4
          have g4segs := congrArg Server.segs hs4
          have hds4 : s.ds = s4.ds := hds2.trans g4ds
          have hdoc4 : s.doc = s4.doc := hdoc2.trans g4doc
          have hsegs4 : s2.segs = s4.segs := g4segs
          have hdel := kb_deleteSegmentsLoop
            (({ s2 with statuses := σ3 } : Server).segs.map
              (fun sg => sg.id)) s4 c4 t4 s.ds s.doc hds4 hdoc4
          rcases h5 : deleteSegmentsLoop kbClient s.ds s.doc
              (({ s2 with statuses := σ3 } : Server).segs.map
                (fun sg => sg.id)) ⟨s4, c4, t4⟩ with ⟨r5, st5⟩
          rw [h5] at h
          have hcomb5 := hdel.symm.trans h5
          obtain ⟨s5, c5, t5⟩ := st5
          rw [Prod.mk.injEq, EngSt.mk.injEq] at hcomb5
          obtain ⟨hr5, hs5, hc5, ht5⟩ := hcomb5
          subst hr5
          simp only [stepBind] at h
          have g5ds := congrArg Server.ds hs5
          have g5doc := congrArg Server.doc hs5
          have hds5 : s.ds = s5.ds := hds4.trans g5ds
          have hdoc5 : s.doc = s5.doc := hdoc4.trans g5doc
          have hcr := kb_createSegments_request s5 c5 t5 s.ds s.doc
            (normalize_text content) (kws.getD []) hds5 hdoc5
          rcases h6 : request kbClient (.createSegments s.ds s.doc
              (normalize_text content) (kws.getD [])) ⟨s5, c5, t5⟩ with
            ⟨r6, st6⟩
          rw [h6] at h
          have hcomb6 := hcr.symm.trans h6
          obtain ⟨s6, c6, t6⟩ := st6
          rw [Prod.mk.injEq, EngSt.mk.injEq] at hcomb6
          obtain ⟨hr6, hs6, hc6, ht6⟩ := hcomb6
          subst hr6
          simp only [stepBind] at h
          have hst' : st' = ⟨s6, c6, t6⟩ := (congrArg Prod.snd h).symm
          have hnil : s4.segs.filter
              (fun sg => !((({ s2 with statuses := σ3 } : Server).segs.map
                (fun sg => sg.id)).contains sg.id)) = [] := by
            rw [← hsegs4]
            refine List.filter_eq_nil.mpr ?_
            intro sg hsg
            simp
            exact ⟨sg, hsg, rfl⟩
          have g5segs := congrArg Server.segs hs5
          have e5 : s5.segs = s4.segs.filter
              (fun sg => !((({ s2 with statuses := σ3 } : Server).segs.map
                (fun sg => sg.id)).contains sg.id)) := g5segs.symm
          have g6segs := congrArg Server.segs hs6
          have e6 : s6.segs = s5.segs ++
              [⟨"seg" ++ toString s5.nextId, normalize_text content,
                kws.getD []⟩] := g6segs.symm
          have hsegs6 : s6.segs =
              [⟨"seg" ++ toString s5.nextId, normalize_text content,
                kws.getD []⟩] := by
            rw [e6, e5, hnil]
            exact List.nil_append _
          have hnc : ∀ r ∈ t5, isCreateSegmentsReq r = false := by
            intro r hr
            rw [← ht5] at hr
            rcases List.mem_append.mp hr with hr | hr
            · rw [← ht4] at hr
              rcases List.mem_append.mp hr with hr | hr
              · rw [ht3e] at hr
                rcases List.mem_append.mp hr with hr | hr
                · rw [← ht2] at hr
                  rcases List.mem_append.mp hr with hr | hr
                  · rw [ht1e] at hr
                    have hm : (isDeleteSegmentReq r ||
                        isCreateSegmentsReq r) = false := ha1 r hr
                    exact (Bool.or_eq_false_iff.mp hm).2
                  · rcases List.mem_cons.mp hr with rfl | hr
                    · rfl
                    · rcases List.mem_cons.mp hr with rfl | hr
                      · rfl
                      · exact absurd hr (List.not_mem_nil r)
                · have hm : (isDeleteSegmentReq r ||
                      isCreateSegmentsReq r) = false := ha3 r hr
                  exact (Bool.or_eq_false_iff.mp hm).2
              · rcases List.mem_cons.mp hr with rfl | hr
                · rfl
                · exact absurd hr (List.not_mem_nil r)
            · rcases List.mem_map.mp hr with ⟨sid, _, rfl⟩
              rfl
          have hfilter : t6.filter isCreateSegmentsReq =
              [Req.createSegments s.ds s.doc (normalize_text content)
                (kws.getD [])] := by
            rw [← ht6, List.filter_append]
            have h0 : t5.filter isCreateSegmentsReq = [] := by
              refine List.filter_eq_nil.mpr ?_
              intro r hr
              simp [hnc r hr]
            rw [h0]
            rfl
          refine ⟨⟨"seg" ++ toString s5.nextId, ?_⟩, ?_, ?_⟩
          · rw [hst']
            exact hsegs6
          · rw [hst']
            exact hfilter
          · intro sg hsg
            have hmem2 : sg ∈ s2.segs := hsegs2 ▸ hsg
            have hidmem : sg.id ∈
                (({ s2 with statuses := σ3 } : Server).segs.map
                  (fun sg => sg.id)) := List.mem_map.mpr ⟨sg, hmem2, rfl⟩
            have hdmem : Req.deleteSegment s.ds s.doc sg.id ∈
                (({ s2 with statuses := σ3 } : Server).segs.map
                  (fun sg => sg.id)).map
                  (fun sid => Req.deleteSegment s.ds s.doc sid) :=
              List.mem_map.mpr ⟨sg.id, hidmem, rfl⟩
            rw [hst']
            show Req.deleteSegment s.ds s.doc sg.id ∈ t6
            rw [← ht6, ← ht5]
            exact List.mem_append.mpr (Or.inl
              (List.mem_append.mpr (Or.inr hdmem)))

/-- Closed instantiation of the C1 invariant on the reference-server
fixture: the run replaces the two post-reindex segments by the single
new segment `seg0` carrying the supplied content and keyword. -/
theorem C1_witness :
    (∀ sg ∈ srvFix.reindexSegs, sg.id ≠ "") ∧
    ((∃ sid,
        (⟨⟨"d1", "doc1", "report", "NEW", [],
            [⟨"seg0", "NEW", ["k1"]⟩], ["processing", "completed"],
            [⟨"r1", "x", []⟩, ⟨"r2", "y", []⟩], 1⟩, 3,
          [.getDocument "d1" "doc1", .getDocument "d1" "doc1",
            .updateByText "d1" "doc1" "NEW" (Option.some "report"),
            .getDocument "d1" "doc1", .getDocument "d1" "doc1",
            .listSegments "d1" "doc1", .deleteSegment "d1" "doc1" "r1",
            .deleteSegment "d1" "doc1" "r2",
            .createSegments "d1" "doc1" "NEW" ["k1"]]⟩ :
          EngSt Server).srv.segs =
          [⟨sid, normalize_text (.str "NEW"),
            (Option.some ["k1"]).getD []⟩]) ∧
      (⟨⟨"d1", "doc1", "report", "NEW", [],
          [⟨"seg0", "NEW", ["k1"]⟩], ["processing", "completed"],
          [⟨"r1", "x", []⟩, ⟨"r2", "y", []⟩], 1⟩, 3,
        [.getDocument "d1" "doc1", .getDocument "d1" "doc1",
          .updateByText "d1" "doc1" "NEW" (Option.some "report"),
          .getDocument "d1" "doc1", .getDocument "d1" "doc1",
          .listSegments "d1" "doc1", .deleteSegment "d1" "doc1" "r1",
          .deleteSegment "d1" "doc1" "r2",
          .createSegments "d1" "doc1" "NEW" ["k1"]]⟩ :
        EngSt Server).trace.filter isCreateSegmentsReq =
        [.createSegments srvFix.ds srvFix.doc (normalize_text (.str "NEW"))
          ((Option.some ["k1"]).getD [])] ∧
      ∀ sg ∈ srvFix.reindexSegs,
        Req.deleteSegment srvFix.ds srvFix.doc sg.id ∈
          (⟨⟨"d1", "doc1", "report", "NEW", [],
              [⟨"seg0", "NEW", ["k1"]⟩], ["processing", "completed"],
              [⟨"r1", "x", []⟩, ⟨"r2", "y", []⟩], 1⟩, 3,
            [.getDocument "d1" "doc1", .getDocument "d1" "doc1",
              .updateByText "d1" "doc1" "NEW" (Option.some "report"),
              .getDocument "d1" "doc1", .getDocument "d1" "doc1",
              .listSegments "d1" "doc1", .deleteSegment "d1" "doc1" "r1",
              .deleteSegment "d1" "doc1" "r2",
              .createSegments "d1" "doc1" "NEW" ["k1"]]⟩ :
            EngSt Server).trace) :=
  ⟨fun sg hsg => by
      rcases List.mem_cons.mp hsg with rfl | hsg
      · decide
      · rcases List.mem_cons.mp hsg with rfl | hsg
        · decide
        · exact absurd hsg (List.not_mem_nil sg),
    C1_replace_single_segment_invariant srvFix (.str "NEW")
      (Option.some ["k1"]) 60 3 0
      (.dict [("dataset_id", .str srvFix.ds),
        ("document_id", .str srvFix.doc),
        ("converted_to_single_chunk", .bool true)])
      ⟨⟨"d1", "doc1", "report", "NEW", [],
          [⟨"seg0", "NEW", ["k1"]⟩], ["processing", "completed"],
          [⟨"r1", "x", []⟩, ⟨"r2", "y", []⟩], 1⟩, 3,
        [.getDocument "d1" "doc1", .getDocument "d1" "doc1",
          .updateByText "d1" "doc1" "NEW" (Option.some "report"),
          .getDocument "d1" "doc1", .getDocument "d1" "doc1",
          .listSegments "d1" "doc1", .deleteSegment "d1" "doc1" "r1",
          .deleteSegment "d1" "doc1" "r2",
          .createSegments "d1" "doc1" "NEW" ["k1"]]⟩
      (fun sg hsg => by
        rcases List.mem_cons.mp hsg with rfl | hsg
        · decide
        · rcases List.mem_cons.mp hsg with rfl | hsg
          · decide
          · exact absurd hsg (List.not_mem_nil sg))
      (by rfl)⟩
